import Mathlib

/-! Edna: block formatting / execution commands and bootstrap content

A shallow embedding of `src/editor/block/format-code.js` and
`src/initial-content.js`.

* JavaScript strings are sequences of UTF-16 code units; `Str` is the list of
  those code units and `s.length` is `List.length`.  Document offsets of the
  editing widget are counted in the same unit.
* The editor view is a record of the document text, the head of the (single)
  selection range and the read-only flag, together with the ordered list of the
  effects the commands perform on it (`setReadOnly`, `dispatch`).  A text put
  into the document has its line breaks normalised: `\r\n` and `\r` count as
  the one code unit `\n`.
* `async` functions are embedded as functions whose result says whether the
  promise was fulfilled or rejected; the network, the formatting library and
  the functions imported from other modules are fields of the environment
  records `Env` and `ContentEnv`.
-/

namespace Edna

/-! ## Strings -/

/-- One UTF-16 code unit. -/
abbrev CodeUnit := Nat

/-- A JavaScript string: its UTF-16 code units, in order. -/
abbrev Str := List CodeUnit

/-- UTF-16 encoding of one Unicode scalar value. -/
def utf16Char (c : Char) : Str :=
  if c.toNat < 65536 then [c.toNat]
  else [55296 + (c.toNat - 65536) / 1024, 56320 + (c.toNat - 65536) % 1024]

/-- The JavaScript string denoted by a string literal of the source. -/
def utf16 (s : String) : Str :=
  s.toList.flatMap utf16Char

/-- The decimal rendering of a number inside a template literal. -/
def numberToString (n : Nat) : Str :=
  (Nat.toDigits 10 n).flatMap utf16Char

/-- The code unit of `$`. -/
def dollar : CodeUnit := 36

/-- `GetSubstitution` of ECMA-262 for a match without capture groups: in the
replacement template `$$` stands for `$`, `$&` for the matched text, a dollar
followed by a backtick for the text before the match and a dollar followed by
a single quote for the text after it; every other code unit (also a `$`
followed by digits or by `<`, there being no captures) stands for itself. -/
def getSubstitution (matched before after : Str) : Str → Str
  | 36 :: 36 :: t => dollar :: getSubstitution matched before after t
  | 36 :: 38 :: t => matched ++ getSubstitution matched before after t
  | 36 :: 96 :: t => before ++ getSubstitution matched before after t
  | 36 :: 39 :: t => after ++ getSubstitution matched before after t
  | c :: t => c :: getSubstitution matched before after t
  | [] => []

/-- Scanning loop shared by the global replacements.  `skip` counts the code
units of the current match still to be consumed, `before` is the part of the
subject already scanned. -/
def replaceAllAux (pat rep : Str) : Nat → Str → Str → Str
  | _, _, [] => []
  | k + 1, before, c :: t => replaceAllAux pat rep k (before ++ [c]) t
  | 0, before, c :: t =>
    if pat.isPrefixOf (c :: t) then
      getSubstitution pat before ((c :: t).drop pat.length) rep
        ++ replaceAllAux pat rep (pat.length - 1) (before ++ [c]) t
    else
      c :: replaceAllAux pat rep 0 (before ++ [c]) t

/-- `s.replace(/pat/g, rep)` and `s.replaceAll(pat, rep)` for a non-empty
literal pattern `pat` and a string replacement `rep`: every match, found left
to right without overlap, is replaced by the expansion of `rep`. -/
def replaceAll (pat rep s : Str) : Str :=
  replaceAllAux pat rep 0 [] s

/-- Scanning loop of `replaceFirst`. -/
def replaceFirstAux (pat rep : Str) : Str → Str → Str
  | _, [] => []
  | before, c :: t =>
    if pat.isPrefixOf (c :: t) then
      getSubstitution pat before ((c :: t).drop pat.length) rep
        ++ (c :: t).drop pat.length
    else
      c :: replaceFirstAux pat rep (before ++ [c]) t

/-- `s.replace(pat, rep)` for a non-empty string pattern `pat` and a string
replacement `rep`: only the first occurrence is replaced. -/
def replaceFirst (pat rep s : Str) : Str :=
  replaceFirstAux pat rep [] s

/-! ## The editor surface -/

/-- The result of awaiting a promise. -/
inductive Awaited (α : Type) where
  | rejected : Awaited α
  | fulfilled (value : α) : Awaited α
  deriving DecidableEq, Repr

/-- A range `[from, to)` of document offsets. -/
structure Range where
  from_ : Nat
  to_ : Nat
  deriving DecidableEq, Repr

/-- The language reference stored in a block. -/
structure BlockLanguage where
  name : Str
  deriving DecidableEq, Repr

/-- The active block as returned by `getActiveNoteBlock`: the fields the
commands read. -/
structure NoteBlock where
  language : BlockLanguage
  content : Range
  deriving DecidableEq, Repr

/-- An entry of the language registry: the fields the commands read. -/
structure Language where
  name : Str
  token : Str
  deriving DecidableEq, Repr

/-- The editor state: document text, head of the single selection range,
read-only flag and indentation width. -/
structure EditorState where
  doc : Str
  head : Nat
  readOnly : Bool
  tabSize : Nat
  deriving DecidableEq, Repr

/-- The `changes` part of a transaction spec. -/
structure ChangeSpec where
  from_ : Nat
  to_ : Nat
  insert : Str
  deriving DecidableEq, Repr

/-- A transaction spec as built by the commands: one change, a cursor
selection, and the options `userEvent` and `scrollIntoView`. -/
structure TransactionSpec where
  changes : ChangeSpec
  selection : Int
  userEvent : Str
  scrollIntoView : Bool
  deriving DecidableEq, Repr

/-- A transaction: the spec it was built from and the state it leads to. -/
structure Transaction where
  spec : TransactionSpec
  state : EditorState
  deriving DecidableEq, Repr

/-- The effects a command performs on the view, in order. -/
inductive Effect where
  | setReadOnly (value : Bool) : Effect
  | dispatch (spec : TransactionSpec) : Effect
  deriving DecidableEq, Repr

/-- The editor view: its current state and the effects performed so far. -/
structure EditorView where
  state : EditorState
  effects : List Effect
  deriving DecidableEq, Repr

/-- The method `state.sliceDoc(from, to)`. -/
def EditorState.sliceDoc (state : EditorState) (from_ to_ : Nat) : Str :=
  (state.doc.drop from_).take (to_ - from_)

/-- The line breaks of a text put into the document: the editing widget
splits an inserted string at `\r\n`, `\r` and `\n` (code units 13 and 10)
and counts every line break as the one code unit `\n`. -/
def normalizeLineBreaks : Str → Str
  | 13 :: 10 :: t => 10 :: normalizeLineBreaks t
  | 13 :: t => 10 :: normalizeLineBreaks t
  | c :: t => c :: normalizeLineBreaks t
  | [] => []

/-- Modelled from the spec: the document-mutation primitive `state.update`
of the editing widget, "accepting a replace-range-and-reposition-cursor
transaction".  The range `[from, to)` of the document is replaced by `insert`,
its line breaks normalised, and the cursor is put at `selection`, a position of
the new document.  A change range or a cursor position outside the document
raises a `RangeError` (`none`). -/
def EditorState.update (state : EditorState) (spec : TransactionSpec) : Option Transaction :=
  if spec.changes.from_ ≤ spec.changes.to_ ∧ spec.changes.to_ ≤ state.doc.length then
    let doc := state.doc.take spec.changes.from_ ++ normalizeLineBreaks spec.changes.insert
      ++ state.doc.drop spec.changes.to_
    if 0 ≤ spec.selection ∧ spec.selection ≤ doc.length then
      some { spec := spec, state := { state with doc := doc, head := spec.selection.toNat } }
    else none
  else none

/-- The method `view.dispatch(tr)`: the view moves to the state of the
transaction. -/
def EditorView.dispatch (view : EditorView) (tr : Transaction) : EditorView :=
  { state := tr.state, effects := view.effects ++ [Effect.dispatch tr.spec] }

/-- Modelled from the spec: the "read-only toggle on the document view"
(`setReadOnly(view, value)` of `editor.js`, and the method of the same name of
the editor found by `findEditorByView(view)`). -/
def setReadOnly (view : EditorView) (value : Bool) : EditorView :=
  { state := { view.state with readOnly := value },
    effects := view.effects ++ [Effect.setReadOnly value] }

/-- The transaction specs dispatched, in order. -/
def dispatched : List Effect → List TransactionSpec
  | [] => []
  | Effect.dispatch spec :: es => spec :: dispatched es
  | Effect.setReadOnly _ :: es => dispatched es

/-! ## The collaborators -/

/-- One event of the execution service. -/
structure Event where
  Kind : Str
  Message : Str
  deriving DecidableEq, Repr

/-- The JSON body of a response of the formatting or execution service; a
field that is absent is the empty string or the empty list. -/
structure Json where
  Body : Str
  Error : Str
  Errors : Str
  Events : List Event
  deriving DecidableEq, Repr

/-- A `fetch` response: `ok`, `status`, `statusText` and the result of
`rsp.json()`. -/
structure Response where
  ok : Bool
  status : Nat
  statusText : Str
  json : Awaited Json
  deriving DecidableEq, Repr

/-- The value of `langGetPrettierInfo(language)`. -/
structure PrettierInfo where
  parser : Str
  plugins : List Str
  deriving DecidableEq, Repr

/-- The value of `prettier.formatWithCursor`, and of the record built around
`prettier.format`. -/
structure FormattedContent where
  formatted : Str
  cursorOffset : Int
  deriving DecidableEq, Repr

/-- The module `prettier/standalone`: `format(content, options)` and
`formatWithCursor(content, options)`, the options being the cursor offset
(for the latter), the parser information and the tab width. -/
structure Prettier where
  format : Str → PrettierInfo → Nat → Awaited Str
  formatWithCursor : Str → Int → PrettierInfo → Nat → Awaited FormattedContent

/-- A block function `{name, fn}`; `fn` either yields a text or throws, the
error side being the rendering `${e}` of what was thrown. -/
structure BlockFunction where
  name : Str
  fn : Str → Except Str Str

/-- What `format-code.js` imports and calls: the active-block locator (a
function of the document and of the selection head), the language registry
with its capability predicates, the dynamic import of the formatting library,
and `fetch(uri, {method: "POST", body})`. -/
structure Env where
  activeNoteBlock : Str → Nat → NoteBlock
  getLanguage : Str → Language
  langSupportsFormat : Language → Bool
  langSupportsRun : Language → Bool
  langGetPrettierInfo : Language → Awaited PrettierInfo
  importPrettier : Awaited Prettier
  fetch : Str → Str → Awaited Response

/-- The call `getActiveNoteBlock(state)`. -/
def getActiveNoteBlock (env : Env) (state : EditorState) : NoteBlock :=
  env.activeNoteBlock state.doc state.head

/-- How a command ends: it returns nothing, returns a boolean, or an
exception leaves it (the promise is rejected). -/
inductive Ret where
  | undefined : Ret
  | bool (value : Bool) : Ret
  | threw : Ret
  deriving DecidableEq, Repr

/-- The result of a command and the view it leaves behind. -/
structure Outcome where
  ret : Ret
  view : EditorView
  deriving DecidableEq, Repr

/-! ## `format-code.js` -/

/-- The function `formatGo(s)`: the formatted text, or `null` (`none`) when the
response is not ok, reports an error, or gives back the text unchanged.  The
promise is rejected when `fetch` or `rsp.json()` is. -/
def formatGo (env : Env) (s : Str) : Awaited (Option Str) :=
  let uri := utf16 "/api/goplay/fmt"
  match env.fetch uri s with
  | Awaited.rejected => Awaited.rejected
  | Awaited.fulfilled rsp =>
    if !rsp.ok then Awaited.fulfilled none
    else
      match rsp.json with
      | Awaited.rejected => Awaited.rejected
      | Awaited.fulfilled res =>
        if res.Error ≠ [] then Awaited.fulfilled none
        else if res.Body = s then Awaited.fulfilled none
        else Awaited.fulfilled (some res.Body)

/-- The function `insertAfterActiveBlock(view, text)`. -/
def insertAfterActiveBlock (env : Env) (view : EditorView) (text : Str) : Outcome :=
  let state := view.state
  if state.readOnly then { ret := Ret.bool false, view := view }
  else
    let block := getActiveNoteBlock env state
    match view.state.update
      { changes := { from_ := block.content.to_, to_ := block.content.to_, insert := text },
        selection := (block.content.to_ : Int) + (text.length : Int),
        userEvent := utf16 "input",
        scrollIntoView := true } with
    | none => { ret := Ret.threw, view := view }
    | some tr => { ret := Ret.undefined, view := view.dispatch tr }

/-- The text `res` of `editorRunBlockFunction`: the value of `fdef.fn(content)`,
or the error message when the call throws. -/
def runBlockFunctionResult (fdef : BlockFunction) (content : Str) : Str :=
  match fdef.fn content with
  | Except.ok res => res
  | Except.error e => utf16 "error running " ++ fdef.name ++ utf16 ": " ++ e

/-- The function `editorRunBlockFunction(view, fdef, replace)`. -/
def editorRunBlockFunction (env : Env) (view : EditorView) (fdef : BlockFunction)
    (replace : Bool) : Outcome :=
  let state := view.state
  if state.readOnly then { ret := Ret.bool false, view := view }
  else
    let block := getActiveNoteBlock env state
    let cursorPos := state.head
    let content := state.sliceDoc block.content.from_ block.content.to_
    let res := runBlockFunctionResult fdef content
    if replace then
      let cursorOffset : Int := (cursorPos : Int) - (block.content.from_ : Int)
      match view.state.update
        { changes := { from_ := block.content.from_, to_ := block.content.to_, insert := res },
          selection := (block.content.from_ : Int) + min cursorOffset (res.length : Int),
          userEvent := utf16 "input",
          scrollIntoView := true } with
      | none => { ret := Ret.threw, view := view }
      | some tr => { ret := Ret.undefined, view := view.dispatch tr }
    else
      let text := if (utf16 "\n∞∞∞").isPrefixOf res then res else utf16 "\n∞∞∞text-a\n" ++ res
      let r := insertAfterActiveBlock env view text
      { ret := if r.ret = Ret.threw then Ret.threw else Ret.undefined, view := r.view }

/-- The value `formattedContent` computed inside the `try` of
`formatBlockContent`: `prettier.format` with the cursor put at 0 or at the end
of the formatted text when the cursor is at the start or at the end of the
block, `prettier.formatWithCursor` otherwise. -/
def prettierFormatted (prettier : Prettier) (info : PrettierInfo) (state : EditorState)
    (block : NoteBlock) (cursorPos : Nat) (content : Str) : Awaited FormattedContent :=
  let useFormat : Bool :=
    decide (cursorPos = block.content.from_) || decide (cursorPos = block.content.to_)
  if useFormat then
    match prettier.format content info state.tabSize with
    | Awaited.rejected => Awaited.rejected
    | Awaited.fulfilled formatted =>
      Awaited.fulfilled
        { formatted := formatted,
          cursorOffset :=
            if cursorPos = block.content.from_ then 0 else (formatted.length : Int) }
  else
    prettier.formatWithCursor content ((cursorPos : Int) - (block.content.from_ : Int))
      info state.tabSize

/-- The local-formatter part of `formatBlockContent` (from "formatting with
prettier" on). -/
def formatWithPrettier (env : Env) (view : EditorView) (state : EditorState) (block : NoteBlock)
    (language : Language) (cursorPos : Nat) (content : Str) : Outcome :=
  match env.importPrettier with
  | Awaited.rejected => { ret := Ret.threw, view := view }
  | Awaited.fulfilled prettier =>
    match env.langGetPrettierInfo language with
    | Awaited.rejected => { ret := Ret.threw, view := view }
    | Awaited.fulfilled info =>
      match prettierFormatted prettier info state block cursorPos content with
      | Awaited.rejected => { ret := Ret.bool false, view := view }
      | Awaited.fulfilled formattedContent =>
        match view.state.update
          { changes :=
              { from_ := block.content.from_, to_ := block.content.to_,
                insert := formattedContent.formatted },
            selection :=
              (block.content.from_ : Int)
                + min formattedContent.cursorOffset (formattedContent.formatted.length : Int),
            userEvent := utf16 "input",
            scrollIntoView := true } with
        | none => { ret := Ret.threw, view := view }
        | some tr => { ret := Ret.bool true, view := view.dispatch tr }

/-- The function `formatBlockContent(view)`. -/
def formatBlockContent (env : Env) (view : EditorView) : Outcome :=
  let state := view.state
  if state.readOnly then { ret := Ret.bool false, view := view }
  else
    let block := getActiveNoteBlock env state
    let language := env.getLanguage block.language.name
    if !env.langSupportsFormat language then { ret := Ret.bool false, view := view }
    else
      let cursorPos := state.head
      let content := state.sliceDoc block.content.from_ block.content.to_
      if language.token = utf16 "golang" then
        let view1 := setReadOnly view true
        match formatGo env content with
        | Awaited.rejected => { ret := Ret.bool false, view := setReadOnly view1 false }
        | Awaited.fulfilled s =>
          let view2 := setReadOnly view1 false
          match s with
          | none => { ret := Ret.bool false, view := view2 }
          | some s =>
            if s = [] then { ret := Ret.bool false, view := view2 }
            else
              let cursorOffset : Int := (cursorPos : Int) - (block.content.from_ : Int)
              match view2.state.update
                { changes :=
                    { from_ := block.content.from_, to_ := block.content.to_, insert := s },
                  selection := (block.content.from_ : Int) + min cursorOffset (s.length : Int),
                  userEvent := utf16 "input",
                  scrollIntoView := true } with
              | none => { ret := Ret.threw, view := view2 }
              | some tr => { ret := Ret.bool true, view := view2.dispatch tr }
      else
        formatWithPrettier env view state block language cursorPos content

/-- The function `getError(res)`. -/
def getError (res : Json) : Str :=
  if res.Error ≠ [] then res.Error
  else if res.Errors ≠ [] then res.Errors
  else []

/-- The contribution of one event to the output of `runGo`: its message,
after the line `Stderr:` when the event is of kind `stderr`. -/
def eventText (ev : Event) : Str :=
  (if ev.Kind = utf16 "stderr" then utf16 "Stderr:\n" else []) ++ ev.Message

/-- The loop of `runGo` over `res.Events`, started with the text `s`. -/
def runGoEvents : Str → List Event → Str
  | s, [] => s
  | s, ev :: evs =>
    runGoEvents ((if s ≠ [] then s ++ utf16 "\n" else s) ++ eventText ev) evs

/-- The function `runGo(code)`. -/
def runGo (env : Env) (code : Str) : Awaited Str :=
  let uri := utf16 "/api/goplay/compile"
  match env.fetch uri code with
  | Awaited.rejected => Awaited.rejected
  | Awaited.fulfilled rsp =>
    if !rsp.ok then
      Awaited.fulfilled
        (utf16 "Error: " ++ numberToString rsp.status ++ utf16 " " ++ rsp.statusText)
    else
      match rsp.json with
      | Awaited.rejected => Awaited.rejected
      | Awaited.fulfilled res =>
        let err := getError res
        if err ≠ [] then Awaited.fulfilled err
        else Awaited.fulfilled (runGoEvents [] res.Events)

/-- The end of `runBlockContent`: the output is appended as a new block. -/
def appendOutput (env : Env) (view : EditorView) (output : Str) : Outcome :=
  let text := utf16 "\n∞∞∞text-a\n" ++ utf16 "output of running the code:\n" ++ output
  let r := insertAfterActiveBlock env view text
  { ret := if r.ret = Ret.threw then Ret.threw else Ret.bool true, view := r.view }

/-- The function `runBlockContent(view)`. -/
def runBlockContent (env : Env) (view : EditorView) : Outcome :=
  let state := view.state
  let block := getActiveNoteBlock env state
  let lang := env.getLanguage block.language.name
  if !env.langSupportsRun lang then { ret := Ret.bool false, view := view }
  else
    let content := state.sliceDoc block.content.from_ block.content.to_
    let view1 := setReadOnly view true
    if lang.token = utf16 "golang" then
      match runGo env content with
      | Awaited.rejected => { ret := Ret.bool false, view := view1 }
      | Awaited.fulfilled s =>
        let view2 := setReadOnly view1 false
        if s = [] then { ret := Ret.bool false, view := view2 }
        else appendOutput env view2 s
    else
      appendOutput env view1 []

/-! ## `initial-content.js` -/

/-- What `initial-content.js` imports: the process-wide default platform, the
key labels of a platform, the key-help block, the content-normalization pass
and the bundled templates. -/
structure ContentEnv where
  platformName : Str
  getModChar : Str → Str
  getAltChar : Str → Str
  keyHelpStr : Str → Str
  fixUpNoteContent : Str → Str
  dailyJournalRaw : Str
  helpRaw : Str
  inboxRaw : Str
  initialDevRaw : Str
  initialRaw : Str
  releaseNotesRaw : Str

/-- The function `fixUpShortcuts(s, platform = platformName)`; `none` is an
omitted argument. -/
def fixUpShortcuts (env : ContentEnv) (s : Str) (platform : Option Str) : Str :=
  let platform := platform.getD env.platformName
  let modChar := env.getModChar platform
  let altChar := env.getAltChar platform
  let s := replaceAll (utf16 "Alt") altChar s
  let s := replaceAll (utf16 "Mod") modChar s
  s

/-- The function `getHelp(platform = platformName)`. -/
def getHelp (env : ContentEnv) (platform : Option Str) : Str :=
  let platform := platform.getD env.platformName
  let keyHelp := env.keyHelpStr platform
  let help := fixUpShortcuts env env.helpRaw (some platform)
  let help := replaceFirst (utf16 "{{keyHelp}}") keyHelp help
  let help := replaceAll (utf16 "[Edna](https://edna.arslexis.io)") (utf16 "Edna") help
  env.fixUpNoteContent help

/-- The function `getReleaseNotes()`. -/
def getReleaseNotes (env : ContentEnv) : Str :=
  fixUpShortcuts env env.releaseNotesRaw none

/-- The record returned by `getInitialContent`. -/
structure InitialContent where
  initialContent : Str
  initialDevContent : Str
  initialJournal : Str
  initialInbox : Str
  deriving DecidableEq, Repr

/-- The function `getInitialContent(platform = platformName)`. -/
def getInitialContent (env : ContentEnv) (platform : Option Str) : InitialContent :=
  let platform := platform.getD env.platformName
  let keyHelp := env.keyHelpStr platform
  let initial := fixUpShortcuts env env.initialRaw none
  let initial := replaceFirst (utf16 "{{keyHelp}}") keyHelp initial
  let initialDev := fixUpShortcuts env env.initialDevRaw none
  let initialDevContent := initial ++ initialDev
  let initialDevContent := env.fixUpNoteContent initialDevContent
  let initialJournal := fixUpShortcuts env env.dailyJournalRaw none
  let initialJournal := env.fixUpNoteContent initialJournal
  let initialInbox := fixUpShortcuts env env.inboxRaw none
  let initialInbox := env.fixUpNoteContent initialInbox
  let initial := env.fixUpNoteContent initial
  { initialContent := initial,
    initialDevContent := initialDevContent,
    initialJournal := initialJournal,
    initialInbox := initialInbox }

/-! ## Transaction specs and the spec's readings -/

/-- The transaction spec built by `insertAfterActiveBlock` for a block ending
at `to_`. -/
def insertSpec (to_ : Nat) (text : Str) : TransactionSpec :=
  { changes := { from_ := to_, to_ := to_, insert := text },
    selection := (to_ : Int) + (text.length : Int),
    userEvent := utf16 "input",
    scrollIntoView := true }

/-- The transaction spec of a replace-in-place edit: the content range of the
block is replaced by `insert` and the cursor is put `min cursorOffset
insert.length` after the start of the block. -/
def replaceSpec (block : NoteBlock) (insert : Str) (cursorOffset : Int) : TransactionSpec :=
  { changes := { from_ := block.content.from_, to_ := block.content.to_, insert := insert },
    selection := (block.content.from_ : Int) + min cursorOffset (insert.length : Int),
    userEvent := utf16 "input",
    scrollIntoView := true }

/-- The text `runBlockContent` appends for the output `output`. -/
def outputBlock (output : Str) : Str :=
  utf16 "\n∞∞∞text-a\n" ++ utf16 "output of running the code:\n" ++ output

/-- The spec's "newline-joined": the texts separated by a line feed, as
`Array.prototype.join("\n")` does. -/
def joinLines : List Str → Str
  | [] => []
  | [x] => x
  | x :: y :: ys => x ++ utf16 "\n" ++ joinLines (y :: ys)

/-- The spec's reading of `fixUpShortcuts`: the text is scanned once, every
occurrence of `Alt` (code units 65, 108, 116) is replaced by the label `a`,
every occurrence of `Mod` (code units 77, 111, 100) by the label `m`, and every
other code unit is kept. -/
def substituteShortcuts (m a : Str) : Str → Str
  | 65 :: 108 :: 116 :: r => a ++ substituteShortcuts m a r
  | 77 :: 111 :: 100 :: r => m ++ substituteShortcuts m a r
  | c :: t => c :: substituteShortcuts m a t
  | [] => []

/-! ## Sample inputs -/

/-- A registry with the two languages of the examples. -/
def sampleLanguage (name : Str) : Language :=
  { name := name, token := name }

/-- A formatting library that puts `x = 1;` and a line end for any input and
reports the cursor at offset 2. -/
def samplePrettier : Prettier :=
  { format := fun _ _ _ => Awaited.fulfilled (utf16 "x = 1;\n"),
    formatWithCursor := fun _ _ _ _ =>
      Awaited.fulfilled { formatted := utf16 "x = 1;\n", cursorOffset := 2 } }

/-- An environment whose active block is the document without its last `tail`
code units, in language `lang`, and whose network answers with `rsp`. -/
def sampleEnv (tail : Nat) (lang : String) (rsp : Awaited Response) : Env :=
  { activeNoteBlock := fun doc _ =>
      { language := { name := utf16 lang },
        content := { from_ := 0, to_ := doc.length - tail } },
    getLanguage := sampleLanguage,
    langSupportsFormat := fun _ => true,
    langSupportsRun := fun l => decide (l.token = utf16 "golang"),
    langGetPrettierInfo := fun _ => Awaited.fulfilled { parser := utf16 "babel", plugins := [] },
    importPrettier := Awaited.fulfilled samplePrettier,
    fetch := fun _ _ => rsp }

/-- A writable view on the text `doc` with the cursor at `head`. -/
def sampleView (doc : String) (head : Nat) : EditorView :=
  { state := { doc := utf16 doc, head := head, readOnly := false, tabSize := 4 },
    effects := [] }

/-- An ok response with the given JSON body. -/
def okResponse (json : Json) : Awaited Response :=
  Awaited.fulfilled
    { ok := true, status := 200, statusText := utf16 "OK", json := Awaited.fulfilled json }

/-- A block function that answers `HI` whatever the content. -/
def sampleFunction : BlockFunction :=
  { name := utf16 "shout", fn := fun _ => Except.ok (utf16 "HI") }

/-- An event of kind `stdout`. -/
def stdoutEvent (message : String) : Event :=
  { Kind := utf16 "stdout", Message := utf16 message }

/-- An ok response of the execution service with the given events and no
error. -/
def eventsResponse (events : List Event) : Awaited Response :=
  okResponse { Body := [], Error := [], Errors := [], Events := events }

/-- Sample key labels: `⌘` and `⌥` on darwin, `Ctrl` and `Alt` elsewhere; the
default platform is `linux`, the key-help block names the platform, and the
normalization pass keeps the text. -/
def sampleContentEnv : ContentEnv :=
  { platformName := utf16 "linux",
    getModChar := fun p => if p = utf16 "darwin" then utf16 "⌘" else utf16 "Ctrl",
    getAltChar := fun p => if p = utf16 "darwin" then utf16 "⌥" else utf16 "Alt",
    keyHelpStr := fun p => utf16 "keys of " ++ p,
    fixUpNoteContent := fun s => s,
    dailyJournalRaw := utf16 "Journal: Alt+J",
    helpRaw := utf16 "Mod+K {{keyHelp}}",
    inboxRaw := utf16 "Inbox: Mod+I",
    initialDevRaw := utf16 " dev: Alt+D",
    initialRaw := utf16 "Mod+K {{keyHelp}}",
    releaseNotesRaw := utf16 "Mod+R" }

/-- A content environment in which every platform has the modifier-key label
`m` and the alt-key label `a`. -/
def labelEnv (m a : String) : ContentEnv :=
  { sampleContentEnv with getModChar := fun _ => utf16 m, getAltChar := fun _ => utf16 a }

/-! ## Facts about the editor surface -/

theorem normalizeLineBreaks_cons_of_ne (c : CodeUnit) (t : Str) (hc : c ≠ 13) :
    normalizeLineBreaks (c :: t) = c :: normalizeLineBreaks t := by
  rw [normalizeLineBreaks]
  all_goals (intros; simp_all)

/-- A text without carriage return is put into the document as it is. -/
theorem normalizeLineBreaks_of_no_cr (t : Str) (h : 13 ∉ t) : normalizeLineBreaks t = t := by
  induction t with
  | nil => simp [normalizeLineBreaks]
  | cons c t ih =>
    have hc : c ≠ 13 := fun e => h (by simp [e])
    have ht : 13 ∉ t := fun e => h (List.mem_cons_of_mem _ e)
    rw [normalizeLineBreaks_cons_of_ne _ _ hc, ih ht]

theorem update_of_valid (state : EditorState) (spec : TransactionSpec)
    (hcr : 13 ∉ spec.changes.insert)
    (h1 : spec.changes.from_ ≤ spec.changes.to_) (h2 : spec.changes.to_ ≤ state.doc.length)
    (h3 : 0 ≤ spec.selection)
    (h4 : spec.selection ≤
      ((state.doc.take spec.changes.from_ ++ spec.changes.insert
        ++ state.doc.drop spec.changes.to_).length : Int)) :
    state.update spec = some
      { spec := spec,
        state := { state with
          doc := state.doc.take spec.changes.from_ ++ spec.changes.insert
            ++ state.doc.drop spec.changes.to_,
          head := spec.selection.toNat } } := by
  unfold EditorState.update
  rw [if_pos ⟨h1, h2⟩, normalizeLineBreaks_of_no_cr _ hcr]
  simp only []
  rw [if_pos ⟨h3, h4⟩]

theorem update_some (state : EditorState) (spec : TransactionSpec) (tr : Transaction)
    (h : state.update spec = some tr) :
    tr.spec = spec
      ∧ tr.state.doc = state.doc.take spec.changes.from_
        ++ normalizeLineBreaks spec.changes.insert ++ state.doc.drop spec.changes.to_
      ∧ (tr.state.head : Int) = spec.selection ∧ tr.state.readOnly = state.readOnly := by
  unfold EditorState.update at h
  by_cases h1 : spec.changes.from_ ≤ spec.changes.to_ ∧ spec.changes.to_ ≤ state.doc.length
  · rw [if_pos h1] at h
    simp only [] at h
    by_cases h2 : 0 ≤ spec.selection ∧ spec.selection ≤
        ((state.doc.take spec.changes.from_ ++ normalizeLineBreaks spec.changes.insert
          ++ state.doc.drop spec.changes.to_).length : Int)
    · rw [if_pos h2] at h
      simp only [Option.some.injEq] at h
      subst h
      exact ⟨rfl, rfl, Int.toNat_of_nonneg h2.1, rfl⟩
    · rw [if_neg h2] at h
      exact absurd h (by simp)
  · rw [if_neg h1] at h
    exact absurd h (by simp)

theorem length_splice (doc ins : Str) (a b : Nat) (hb : b ≤ doc.length) (hab : a ≤ b) :
    (doc.take a ++ ins ++ doc.drop b).length = a + ins.length + (doc.length - b) := by
  simp only [List.length_append, List.length_take, List.length_drop]
  omega

/-- The slice of a spliced document over the inserted range is the inserted
text. -/
theorem slice_splice (doc ins : Str) (a b : Nat) (ha : a ≤ doc.length) :
    ((doc.take a ++ ins ++ doc.drop b).drop a).take (a + ins.length - a) = ins := by
  have h1 : (doc.take a).length = a := by simp [List.length_take, ha]
  rw [List.append_assoc, List.drop_append_of_le_length (by omega)]
  rw [List.drop_of_length_le (by omega)]
  simp

/-! ## Appending after the active block -/

theorem insertAfterActiveBlock_eq (env : Env) (view : EditorView) (text : Str)
    (hw : view.state.readOnly = false)
    (hb : (getActiveNoteBlock env view.state).content.to_ ≤ view.state.doc.length)
    (hcr : 13 ∉ text) :
    insertAfterActiveBlock env view text =
      { ret := Ret.undefined,
        view :=
          { state := { view.state with
              doc := view.state.doc.take (getActiveNoteBlock env view.state).content.to_ ++ text
                ++ view.state.doc.drop (getActiveNoteBlock env view.state).content.to_,
              head := (getActiveNoteBlock env view.state).content.to_ + text.length },
            effects := view.effects ++
              [Effect.dispatch
                (insertSpec (getActiveNoteBlock env view.state).content.to_ text)] } } := by
  unfold insertAfterActiveBlock
  simp only [hw, Bool.false_eq_true, if_false]
  rw [update_of_valid]
  · simp only [EditorView.dispatch, insertSpec]
    congr 3
  · exact hcr
  · exact le_refl _
  · exact hb
  · positivity
  · simp only []
    rw [length_splice _ _ _ _ hb (le_refl _)]
    push_cast
    omega

/-- What a call of `insertAfterActiveBlock` that returns normally has done,
whatever the text. -/
theorem insertAfterActiveBlock_returned (env : Env) (view : EditorView) (text : Str)
    (h : (insertAfterActiveBlock env view text).ret = Ret.undefined) :
    (insertAfterActiveBlock env view text).view.effects = view.effects ++
        [Effect.dispatch (insertSpec (getActiveNoteBlock env view.state).content.to_ text)]
    ∧ (insertAfterActiveBlock env view text).view.state.doc =
        view.state.doc.take (getActiveNoteBlock env view.state).content.to_
          ++ normalizeLineBreaks text
          ++ view.state.doc.drop (getActiveNoteBlock env view.state).content.to_
    ∧ (insertAfterActiveBlock env view text).view.state.head =
        (getActiveNoteBlock env view.state).content.to_ + text.length := by
  unfold insertAfterActiveBlock at h ⊢
  cases hw : view.state.readOnly
  · simp only [hw, Bool.false_eq_true, if_false] at h ⊢
    cases hu : view.state.update
        { changes :=
            { from_ := (getActiveNoteBlock env view.state).content.to_,
              to_ := (getActiveNoteBlock env view.state).content.to_, insert := text },
          selection := ((getActiveNoteBlock env view.state).content.to_ : Int)
            + (text.length : Int),
          userEvent := utf16 "input",
          scrollIntoView := true } with
    | none => rw [hu] at h; exact absurd h (by simp)
    | some tr =>
      obtain ⟨h1, h2, h3, _⟩ := update_some _ _ _ hu
      simp only [EditorView.dispatch, h1, insertSpec]
      refine ⟨trivial, h2, ?_⟩
      simp only [] at h3
      omega
  · simp only [hw, if_true] at h
    exact absurd h (by simp)

/-- C2 fails for a text with a carriage return, whose line break `\r\n` the
document counts as one code unit.  Appending `a\r\nb` to the document `x`
(block `[0, 1)`) throws and dispatches nothing, the cursor position `1 + 4`
lying outside the new document.  Appending it after the block `[0, 2)` of
`abcd` gives the document `aba\nbcd`, which is not the old text around
`a\r\nb`, with the cursor at 6, one past the end of the inserted text. -/
theorem insertAfterActiveBlock_appends_counterexample :
    ((insertAfterActiveBlock (sampleEnv 0 "text" Awaited.rejected) (sampleView "x" 0)
        (utf16 "a\r\nb")).ret = Ret.threw
      ∧ (insertAfterActiveBlock (sampleEnv 0 "text" Awaited.rejected) (sampleView "x" 0)
        (utf16 "a\r\nb")).view.effects = [])
    ∧ ((insertAfterActiveBlock (sampleEnv 2 "text" Awaited.rejected) (sampleView "abcd" 1)
        (utf16 "a\r\nb")).view.state.doc = utf16 "aba\nbcd"
      ∧ (insertAfterActiveBlock (sampleEnv 2 "text" Awaited.rejected) (sampleView "abcd" 1)
        (utf16 "a\r\nb")).view.state.doc
          ≠ (utf16 "abcd").take 2 ++ utf16 "a\r\nb" ++ (utf16 "abcd").drop 2
      ∧ (insertAfterActiveBlock (sampleEnv 2 "text" Awaited.rejected) (sampleView "abcd" 1)
        (utf16 "a\r\nb")).view.state.head = 6
      ∧ ((utf16 "abcd").take 2 ++ normalizeLineBreaks (utf16 "a\r\nb")).length = 5) := by
  decide

/-- C2, as amended.  On a writable document whose active block ends inside the
document, for a text without carriage return, `insertAfterActiveBlock` returns
normally and dispatches exactly one edit: it inserts `text` at
`block.content.to`, deletes nothing (the new document is the old one up to
`block.content.to`, then `text`, then the rest of the old one), and puts the
cursor at `block.content.to + text.length`, the end of the inserted text.
For any text, a call that returns normally has dispatched that one edit, the
document holding the text with its line breaks normalised. -/
theorem insertAfterActiveBlock_appends (env : Env) (view : EditorView) (text : Str)
    (hw : view.state.readOnly = false)
    (hb : (getActiveNoteBlock env view.state).content.to_ ≤ view.state.doc.length) :
    (13 ∉ text →
      (insertAfterActiveBlock env view text).ret = Ret.undefined
      ∧ (insertAfterActiveBlock env view text).view.effects = view.effects ++
          [Effect.dispatch
            { changes :=
                { from_ := (getActiveNoteBlock env view.state).content.to_,
                  to_ := (getActiveNoteBlock env view.state).content.to_,
                  insert := text },
              selection :=
                ((getActiveNoteBlock env view.state).content.to_ : Int) + (text.length : Int),
              userEvent := utf16 "input",
              scrollIntoView := true }]
      ∧ (insertAfterActiveBlock env view text).view.state.doc =
          view.state.doc.take (getActiveNoteBlock env view.state).content.to_ ++ text
            ++ view.state.doc.drop (getActiveNoteBlock env view.state).content.to_
      ∧ (insertAfterActiveBlock env view text).view.state.head =
          (getActiveNoteBlock env view.state).content.to_ + text.length
      ∧ (insertAfterActiveBlock env view text).view.state.readOnly = false)
    ∧ ((insertAfterActiveBlock env view text).ret = Ret.undefined →
      (insertAfterActiveBlock env view text).view.effects = view.effects ++
          [Effect.dispatch (insertSpec (getActiveNoteBlock env view.state).content.to_ text)]
      ∧ (insertAfterActiveBlock env view text).view.state.doc =
          view.state.doc.take (getActiveNoteBlock env view.state).content.to_
            ++ normalizeLineBreaks text
            ++ view.state.doc.drop (getActiveNoteBlock env view.state).content.to_
      ∧ (insertAfterActiveBlock env view text).view.state.head =
          (getActiveNoteBlock env view.state).content.to_ + text.length) := by
  refine ⟨fun hcr => ?_, insertAfterActiveBlock_returned env view text⟩
  rw [insertAfterActiveBlock_eq env view text hw hb hcr]
  exact ⟨rfl, rfl, rfl, rfl, hw⟩

/-- C2 as amended, at a concrete input: appending `!!` after the block
`[0, 2)` of the document `abcd`. -/
theorem insertAfterActiveBlock_appends_witness :
    (insertAfterActiveBlock (sampleEnv 2 "text" Awaited.rejected) (sampleView "abcd" 1)
        (utf16 "!!")).view.state.doc = utf16 "ab!!cd"
    ∧ (insertAfterActiveBlock (sampleEnv 2 "text" Awaited.rejected) (sampleView "abcd" 1)
        (utf16 "!!")).view.state.head = 4 :=
  have h := (insertAfterActiveBlock_appends (sampleEnv 2 "text" Awaited.rejected)
    (sampleView "abcd" 1) (utf16 "!!") rfl (by decide)).1 (by decide)
  ⟨h.2.2.1.trans (by decide), h.2.2.2.1.trans (by decide)⟩

/-! ## Running a block function -/

theorem editorRunBlockFunction_append_eq (env : Env) (view : EditorView) (fdef : BlockFunction)
    (hw : view.state.readOnly = false) :
    editorRunBlockFunction env view fdef false =
      { ret :=
          if (insertAfterActiveBlock env view
              (if (utf16 "\n∞∞∞").isPrefixOf (runBlockFunctionResult fdef
                  (view.state.sliceDoc (getActiveNoteBlock env view.state).content.from_
                    (getActiveNoteBlock env view.state).content.to_))
                then runBlockFunctionResult fdef
                  (view.state.sliceDoc (getActiveNoteBlock env view.state).content.from_
                    (getActiveNoteBlock env view.state).content.to_)
                else utf16 "\n∞∞∞text-a\n" ++ runBlockFunctionResult fdef
                  (view.state.sliceDoc (getActiveNoteBlock env view.state).content.from_
                    (getActiveNoteBlock env view.state).content.to_))).ret = Ret.threw
          then Ret.threw else Ret.undefined,
        view :=
          (insertAfterActiveBlock env view
              (if (utf16 "\n∞∞∞").isPrefixOf (runBlockFunctionResult fdef
                  (view.state.sliceDoc (getActiveNoteBlock env view.state).content.from_
                    (getActiveNoteBlock env view.state).content.to_))
                then runBlockFunctionResult fdef
                  (view.state.sliceDoc (getActiveNoteBlock env view.state).content.from_
                    (getActiveNoteBlock env view.state).content.to_)
                else utf16 "\n∞∞∞text-a\n" ++ runBlockFunctionResult fdef
                  (view.state.sliceDoc (getActiveNoteBlock env view.state).content.from_
                    (getActiveNoteBlock env view.state).content.to_))).view } := by
  unfold editorRunBlockFunction
  simp only [hw, Bool.false_eq_true, if_false]

theorem insertAfterActiveBlock_ret (env : Env) (view : EditorView) (text : Str)
    (hw : view.state.readOnly = false) :
    (insertAfterActiveBlock env view text).ret = Ret.undefined
      ∨ (insertAfterActiveBlock env view text).ret = Ret.threw := by
  unfold insertAfterActiveBlock
  simp only [hw, Bool.false_eq_true, if_false]
  cases view.state.update
      { changes :=
          { from_ := (getActiveNoteBlock env view.state).content.to_,
            to_ := (getActiveNoteBlock env view.state).content.to_, insert := text },
        selection := ((getActiveNoteBlock env view.state).content.to_ : Int)
          + (text.length : Int),
        userEvent := utf16 "input",
        scrollIntoView := true } with
  | none => exact Or.inr rfl
  | some tr => exact Or.inl rfl

theorem marker_line_no_cr : (13 : CodeUnit) ∉ utf16 "\n∞∞∞text-a\n" := by decide

/-- C3. With `replace = false`, on a writable document whose active block ends
inside the document, `editorRunBlockFunction` hands to `insertAfterActiveBlock`
the result text `res` preceded by the one line `\n∞∞∞text-a\n` when `res` does
not start with the block-separator marker `\n∞∞∞`, and `res` itself when it
does: the view it leaves is the view of that call, a run that returns normally
has dispatched as its only edit the insertion of that text at
`block.content.to`, and it returns normally when `res` has no carriage
return. -/
theorem editorRunBlockFunction_wraps (env : Env) (view : EditorView) (fdef : BlockFunction)
    (res : Str)
    (hres : res = runBlockFunctionResult fdef
      (view.state.sliceDoc (getActiveNoteBlock env view.state).content.from_
        (getActiveNoteBlock env view.state).content.to_))
    (hw : view.state.readOnly = false)
    (hb : (getActiveNoteBlock env view.state).content.to_ ≤ view.state.doc.length) :
    ((utf16 "\n∞∞∞").isPrefixOf res = false →
      (editorRunBlockFunction env view fdef false).view
          = (insertAfterActiveBlock env view (utf16 "\n∞∞∞text-a\n" ++ res)).view
      ∧ ((editorRunBlockFunction env view fdef false).ret = Ret.undefined →
        (editorRunBlockFunction env view fdef false).view.effects = view.effects ++
          [Effect.dispatch (insertSpec (getActiveNoteBlock env view.state).content.to_
            (utf16 "\n∞∞∞text-a\n" ++ res))]))
    ∧ ((utf16 "\n∞∞∞").isPrefixOf res = true →
      (editorRunBlockFunction env view fdef false).view
          = (insertAfterActiveBlock env view res).view
      ∧ ((editorRunBlockFunction env view fdef false).ret = Ret.undefined →
        (editorRunBlockFunction env view fdef false).view.effects = view.effects ++
          [Effect.dispatch (insertSpec (getActiveNoteBlock env view.state).content.to_ res)]))
    ∧ (13 ∉ res → (editorRunBlockFunction env view fdef false).ret = Ret.undefined) := by
  subst hres
  have heq := editorRunBlockFunction_append_eq env view fdef hw
  refine ⟨fun hp => ?_, fun hp => ?_, fun hcr => ?_⟩
  · rw [hp] at heq
    simp only [Bool.false_eq_true, if_false] at heq
    rw [heq]
    refine ⟨rfl, fun hret => ?_⟩
    simp only [] at hret ⊢
    rcases insertAfterActiveBlock_ret env view (utf16 "\n∞∞∞text-a\n" ++
        runBlockFunctionResult fdef
          (view.state.sliceDoc (getActiveNoteBlock env view.state).content.from_
            (getActiveNoteBlock env view.state).content.to_)) hw with h | h
    · exact (insertAfterActiveBlock_returned env view _ h).1
    · rw [h] at hret
      exact absurd hret (by simp)
  · rw [hp] at heq
    simp only [if_true] at heq
    rw [heq]
    refine ⟨rfl, fun hret => ?_⟩
    simp only [] at hret ⊢
    rcases insertAfterActiveBlock_ret env view
        (runBlockFunctionResult fdef
          (view.state.sliceDoc (getActiveNoteBlock env view.state).content.from_
            (getActiveNoteBlock env view.state).content.to_)) hw with h | h
    · exact (insertAfterActiveBlock_returned env view _ h).1
    · rw [h] at hret
      exact absurd hret (by simp)
  · rw [heq]
    simp only []
    by_cases hp : (utf16 "\n∞∞∞").isPrefixOf (runBlockFunctionResult fdef
        (view.state.sliceDoc (getActiveNoteBlock env view.state).content.from_
          (getActiveNoteBlock env view.state).content.to_)) = true
    · rw [if_pos hp, insertAfterActiveBlock_eq env view _ hw hb hcr]
      simp
    · rw [if_neg hp, insertAfterActiveBlock_eq env view _ hw hb
        (by
          intro hmem
          rcases List.mem_append.mp hmem with h | h
          · exact marker_line_no_cr h
          · exact hcr h)]
      simp

/-- C3 at a concrete input: the result `HI` is appended to the block `[0, 2)`
of `abcd` as `\n∞∞∞text-a\nHI`. -/
theorem editorRunBlockFunction_wraps_witness :
    (editorRunBlockFunction (sampleEnv 2 "text" Awaited.rejected) (sampleView "abcd" 1)
        sampleFunction false).view.effects
      = [Effect.dispatch (insertSpec 2 (utf16 "\n∞∞∞text-a\nHI"))] :=
  (((editorRunBlockFunction_wraps (sampleEnv 2 "text" Awaited.rejected) (sampleView "abcd" 1)
    sampleFunction (utf16 "HI") (by decide) rfl (by decide)).1 (by decide)).2
      (by decide)).trans (by decide)

/-! ## Replacing the content of the active block -/

theorem replace_step (state : EditorState) (block : NoteBlock) (insert : Str)
    (cursorOffset : Int) (tr : Transaction)
    (h : state.update (replaceSpec block insert cursorOffset) = some tr) :
    tr.spec = replaceSpec block insert cursorOffset
    ∧ tr.state.doc = state.doc.take block.content.from_ ++ normalizeLineBreaks insert
        ++ state.doc.drop block.content.to_
    ∧ (tr.state.head : Int) - (block.content.from_ : Int) = min cursorOffset (insert.length : Int)
    ∧ tr.state.readOnly = state.readOnly := by
  obtain ⟨h1, h2, h3, h4⟩ := update_some _ _ _ h
  refine ⟨h1, h2, ?_, h4⟩
  rw [h3]
  simp only [replaceSpec]
  omega

theorem editorRunBlockFunction_replace_eq (env : Env) (view : EditorView) (fdef : BlockFunction)
    (hw : view.state.readOnly = false) :
    editorRunBlockFunction env view fdef true =
      match view.state.update (replaceSpec (getActiveNoteBlock env view.state)
          (runBlockFunctionResult fdef
            (view.state.sliceDoc (getActiveNoteBlock env view.state).content.from_
              (getActiveNoteBlock env view.state).content.to_))
          ((view.state.head : Int) - ((getActiveNoteBlock env view.state).content.from_ : Int))) with
      | none => { ret := Ret.threw, view := view }
      | some tr => { ret := Ret.undefined, view := view.dispatch tr } := by
  unfold editorRunBlockFunction
  simp only [hw, Bool.false_eq_true, if_false, if_true, replaceSpec]

theorem formatBlockContent_golang_eq (env : Env) (view : EditorView)
    (hw : view.state.readOnly = false)
    (hsup : env.langSupportsFormat
      (env.getLanguage (getActiveNoteBlock env view.state).language.name) = true)
    (htok : (env.getLanguage (getActiveNoteBlock env view.state).language.name).token
      = utf16 "golang") :
    formatBlockContent env view =
      match formatGo env (view.state.sliceDoc (getActiveNoteBlock env view.state).content.from_
          (getActiveNoteBlock env view.state).content.to_) with
      | Awaited.rejected =>
        { ret := Ret.bool false, view := setReadOnly (setReadOnly view true) false }
      | Awaited.fulfilled none =>
        { ret := Ret.bool false, view := setReadOnly (setReadOnly view true) false }
      | Awaited.fulfilled (some s) =>
        if s = [] then
          { ret := Ret.bool false, view := setReadOnly (setReadOnly view true) false }
        else
          match (setReadOnly (setReadOnly view true) false).state.update
            (replaceSpec (getActiveNoteBlock env view.state) s
              ((view.state.head : Int)
                - ((getActiveNoteBlock env view.state).content.from_ : Int))) with
          | none => { ret := Ret.threw, view := setReadOnly (setReadOnly view true) false }
          | some tr =>
            { ret := Ret.bool true,
              view := (setReadOnly (setReadOnly view true) false).dispatch tr } := by
  unfold formatBlockContent
  simp only [hw, hsup, htok, Bool.false_eq_true, if_false, if_true, replaceSpec, Bool.not_true]
  cases formatGo env (view.state.sliceDoc (getActiveNoteBlock env view.state).content.from_
      (getActiveNoteBlock env view.state).content.to_) with
  | rejected => rfl
  | fulfilled s =>
    cases s with
    | none => rfl
    | some s => rfl

theorem formatBlockContent_local_eq (env : Env) (view : EditorView)
    (hw : view.state.readOnly = false)
    (hsup : env.langSupportsFormat
      (env.getLanguage (getActiveNoteBlock env view.state).language.name) = true)
    (htok : (env.getLanguage (getActiveNoteBlock env view.state).language.name).token
      ≠ utf16 "golang") :
    formatBlockContent env view =
      formatWithPrettier env view view.state (getActiveNoteBlock env view.state)
        (env.getLanguage (getActiveNoteBlock env view.state).language.name) view.state.head
        (view.state.sliceDoc (getActiveNoteBlock env view.state).content.from_
          (getActiveNoteBlock env view.state).content.to_) := by
  unfold formatBlockContent
  simp only [hw, hsup, htok, Bool.false_eq_true, if_false, Bool.not_true]

/-- Unless the document is writable and the language supports formatting,
`formatBlockContent` returns `false` and leaves the view alone. -/
theorem formatBlockContent_gate (env : Env) (view : EditorView)
    (h : view.state.readOnly = true ∨ env.langSupportsFormat
      (env.getLanguage (getActiveNoteBlock env view.state).language.name) = false) :
    formatBlockContent env view = { ret := Ret.bool false, view := view } := by
  unfold formatBlockContent
  rcases h with h | h
  · simp only [h, if_true]
  · cases hw : view.state.readOnly
    · simp only [hw, h, Bool.false_eq_true, if_false, Bool.not_false, if_true]
    · simp only [hw, if_true]

theorem formatBlockContent_true (env : Env) (view : EditorView)
    (h : (formatBlockContent env view).ret = Ret.bool true) :
    view.state.readOnly = false ∧ env.langSupportsFormat
      (env.getLanguage (getActiveNoteBlock env view.state).language.name) = true := by
  constructor
  · cases hw : view.state.readOnly
    · rfl
    · rw [formatBlockContent_gate env view (Or.inl hw)] at h
      exact absurd h (by simp)
  · cases hs : env.langSupportsFormat
      (env.getLanguage (getActiveNoteBlock env view.state).language.name)
    · rw [formatBlockContent_gate env view (Or.inr hs)] at h
      exact absurd h (by simp)
    · rfl

theorem prettierFormatted_cursor (prettier : Prettier) (info : PrettierInfo)
    (state : EditorState) (block : NoteBlock) (cursorPos : Nat) (content : Str)
    (fc : FormattedContent)
    (h : prettierFormatted prettier info state block cursorPos content = Awaited.fulfilled fc) :
    (cursorPos = block.content.from_ → fc.cursorOffset = 0)
    ∧ (cursorPos ≠ block.content.from_ → cursorPos = block.content.to_ →
        fc.cursorOffset = (fc.formatted.length : Int))
    ∧ (cursorPos ≠ block.content.from_ → cursorPos ≠ block.content.to_ →
        prettier.formatWithCursor content ((cursorPos : Int) - (block.content.from_ : Int))
          info state.tabSize = Awaited.fulfilled fc) := by
  unfold prettierFormatted at h
  by_cases h1 : cursorPos = block.content.from_
  · simp only [h1, decide_True, Bool.true_or, if_true] at h
    cases hf : prettier.format content info state.tabSize with
    | rejected => rw [hf] at h; exact absurd h (by simp)
    | fulfilled formatted =>
      rw [hf] at h
      simp only [Awaited.fulfilled.injEq] at h
      subst h
      exact ⟨fun _ => rfl, fun hne => absurd h1 hne, fun hne => absurd h1 hne⟩
  · by_cases h2 : cursorPos = block.content.to_
    · simp only [h1, h2, decide_True, Bool.or_true, if_true] at h
      cases hf : prettier.format content info state.tabSize with
      | rejected => rw [hf] at h; exact absurd h (by simp)
      | fulfilled formatted =>
        rw [hf] at h
        simp only [Awaited.fulfilled.injEq] at h
        subst h
        refine ⟨fun he => absurd he h1, fun _ _ => ?_, fun _ hne => absurd h2 hne⟩
        simp only [h2 ▸ h1, if_false]
    · simp only [h1, h2, decide_False, Bool.or_false, Bool.false_eq_true, if_false] at h
      exact ⟨fun he => absurd he h1, fun _ he => absurd he h2, fun _ _ => h⟩

/-- C1, as amended.  Let the active block start at or before the cursor.
(a) A successful replace-in-place edit of `editorRunBlockFunction` and (b) a
successful edit of the remote-formatter path of `formatBlockContent` are one
dispatched transaction that replaces the content range of the block by the new
text (its line breaks normalised) and leaves the cursor `min (cursorPos - block.content.from) newLength`
after the start of the block, a non-negative offset.  (c) On the
local-formatter path the offset after the edit is
`min formattedContent.cursorOffset formatted.length`, where
`formattedContent.cursorOffset` is 0 when the cursor was at the start of the
block, `formatted.length` when it was at its end, and otherwise the offset
returned by `prettier.formatWithCursor`; it is non-negative when that offset
is. -/
theorem replace_cursor (env : Env) (view : EditorView) (fdef : BlockFunction)
    (block : NoteBlock) (language : Language) (content : Str)
    (hblock : getActiveNoteBlock env view.state = block)
    (hlang : env.getLanguage block.language.name = language)
    (hcontent : view.state.sliceDoc block.content.from_ block.content.to_ = content)
    (hcur : block.content.from_ ≤ view.state.head) :
    ((editorRunBlockFunction env view fdef true).ret = Ret.undefined →
      (editorRunBlockFunction env view fdef true).view.effects = view.effects ++
          [Effect.dispatch (replaceSpec block (runBlockFunctionResult fdef content)
            ((view.state.head : Int) - (block.content.from_ : Int)))]
      ∧ (editorRunBlockFunction env view fdef true).view.state.doc =
          view.state.doc.take block.content.from_
            ++ normalizeLineBreaks (runBlockFunctionResult fdef content)
            ++ view.state.doc.drop block.content.to_
      ∧ ((editorRunBlockFunction env view fdef true).view.state.head : Int)
            - (block.content.from_ : Int)
          = min ((view.state.head : Int) - (block.content.from_ : Int))
              ((runBlockFunctionResult fdef content).length : Int)
      ∧ 0 ≤ min ((view.state.head : Int) - (block.content.from_ : Int))
              ((runBlockFunctionResult fdef content).length : Int))
    ∧ (language.token = utf16 "golang" → ∀ s : Str,
        formatGo env content = Awaited.fulfilled (some s) →
        (formatBlockContent env view).ret = Ret.bool true →
      (formatBlockContent env view).view.effects = view.effects ++
          [Effect.setReadOnly true, Effect.setReadOnly false,
            Effect.dispatch (replaceSpec block s
              ((view.state.head : Int) - (block.content.from_ : Int)))]
      ∧ (formatBlockContent env view).view.state.doc =
          view.state.doc.take block.content.from_ ++ normalizeLineBreaks s
            ++ view.state.doc.drop block.content.to_
      ∧ ((formatBlockContent env view).view.state.head : Int) - (block.content.from_ : Int)
          = min ((view.state.head : Int) - (block.content.from_ : Int)) (s.length : Int)
      ∧ 0 ≤ min ((view.state.head : Int) - (block.content.from_ : Int)) (s.length : Int))
    ∧ (language.token ≠ utf16 "golang" →
        ∀ (prettier : Prettier) (info : PrettierInfo) (fc : FormattedContent),
        env.importPrettier = Awaited.fulfilled prettier →
        env.langGetPrettierInfo language = Awaited.fulfilled info →
        prettierFormatted prettier info view.state block view.state.head content
          = Awaited.fulfilled fc →
        (formatBlockContent env view).ret = Ret.bool true →
      (formatBlockContent env view).view.effects = view.effects ++
          [Effect.dispatch (replaceSpec block fc.formatted fc.cursorOffset)]
      ∧ (formatBlockContent env view).view.state.doc =
          view.state.doc.take block.content.from_ ++ normalizeLineBreaks fc.formatted
            ++ view.state.doc.drop block.content.to_
      ∧ ((formatBlockContent env view).view.state.head : Int) - (block.content.from_ : Int)
          = min fc.cursorOffset (fc.formatted.length : Int)
      ∧ (view.state.head = block.content.from_ → fc.cursorOffset = 0)
      ∧ (view.state.head ≠ block.content.from_ → view.state.head = block.content.to_ →
          fc.cursorOffset = (fc.formatted.length : Int))
      ∧ (view.state.head ≠ block.content.from_ → view.state.head ≠ block.content.to_ →
          prettier.formatWithCursor content
            ((view.state.head : Int) - (block.content.from_ : Int)) info view.state.tabSize
            = Awaited.fulfilled fc)
      ∧ (0 ≤ fc.cursorOffset → 0 ≤ min fc.cursorOffset (fc.formatted.length : Int))) := by
  subst hblock hlang hcontent
  have hoff : (0 : Int) ≤ (view.state.head : Int)
      - ((getActiveNoteBlock env view.state).content.from_ : Int) := by omega
  refine ⟨?_, ?_, ?_⟩
  · intro hret
    have hw : view.state.readOnly = false := by
      cases hro : view.state.readOnly
      · rfl
      · unfold editorRunBlockFunction at hret
        simp only [hro, if_true] at hret
        exact absurd hret (by simp)
    rw [editorRunBlockFunction_replace_eq env view fdef hw] at hret ⊢
    cases hu : view.state.update (replaceSpec (getActiveNoteBlock env view.state)
          (runBlockFunctionResult fdef
            (view.state.sliceDoc (getActiveNoteBlock env view.state).content.from_
              (getActiveNoteBlock env view.state).content.to_))
          ((view.state.head : Int) - ((getActiveNoteBlock env view.state).content.from_ : Int))) with
    | none => rw [hu] at hret; exact absurd hret (by simp)
    | some tr =>
      obtain ⟨h1, h2, h3, _⟩ := replace_step _ _ _ _ _ hu
      simp only [EditorView.dispatch, h1]
      exact ⟨trivial, h2, h3, le_min hoff (Int.ofNat_nonneg _)⟩
  · intro htok s hs hret
    obtain ⟨hw, hsup⟩ := formatBlockContent_true env view hret
    rw [formatBlockContent_golang_eq env view hw hsup htok] at hret ⊢
    rw [hs] at hret ⊢
    simp only [] at hret ⊢
    by_cases hs0 : s = []
    · rw [if_pos hs0] at hret
      exact absurd hret (by simp)
    · rw [if_neg hs0] at hret ⊢
      cases hu : (setReadOnly (setReadOnly view true) false).state.update
          (replaceSpec (getActiveNoteBlock env view.state) s
            ((view.state.head : Int)
              - ((getActiveNoteBlock env view.state).content.from_ : Int))) with
      | none => rw [hu] at hret; exact absurd hret (by simp)
      | some tr =>
        obtain ⟨h1, h2, h3, _⟩ := replace_step _ _ _ _ _ hu
        refine ⟨?_, h2, h3, le_min hoff (Int.ofNat_nonneg _)⟩
        simp only [EditorView.dispatch, h1, setReadOnly, List.append_assoc, List.singleton_append,
          List.cons_append, List.nil_append]
  · intro htok prettier info fc hp hi hfc hret
    obtain ⟨hw, hsup⟩ := formatBlockContent_true env view hret
    rw [formatBlockContent_local_eq env view hw hsup htok] at hret ⊢
    unfold formatWithPrettier at hret ⊢
    simp only [hp, hi, hfc] at hret ⊢
    have hu' : ∀ o, view.state.update
        { changes :=
            { from_ := (getActiveNoteBlock env view.state).content.from_,
              to_ := (getActiveNoteBlock env view.state).content.to_,
              insert := fc.formatted },
          selection := ((getActiveNoteBlock env view.state).content.from_ : Int)
            + min fc.cursorOffset (fc.formatted.length : Int),
          userEvent := utf16 "input",
          scrollIntoView := true } = o →
        view.state.update (replaceSpec (getActiveNoteBlock env view.state) fc.formatted
          fc.cursorOffset) = o := fun o h => h
    cases hu : view.state.update
        { changes :=
            { from_ := (getActiveNoteBlock env view.state).content.from_,
              to_ := (getActiveNoteBlock env view.state).content.to_,
              insert := fc.formatted },
          selection := ((getActiveNoteBlock env view.state).content.from_ : Int)
            + min fc.cursorOffset (fc.formatted.length : Int),
          userEvent := utf16 "input",
          scrollIntoView := true } with
    | none => rw [hu] at hret; exact absurd hret (by simp)
    | some tr =>
      obtain ⟨h1, h2, h3, _⟩ := replace_step _ _ _ _ _ (hu' _ hu)
      obtain ⟨c1, c2, c3⟩ := prettierFormatted_cursor _ _ _ _ _ _ _ hfc
      simp only [EditorView.dispatch, h1]
      exact ⟨trivial, h2, h3, c1, c2, c3, fun h0 => le_min h0 (Int.ofNat_nonneg _)⟩

/-- C1 fails on the local-formatter path: with the cursor at the end of the
block `x=1` (offset 3) and the formatted text `x = 1;\n` (7 code units), the
edit succeeds and leaves the cursor at offset 7 of the block, not at
`min 3 7 = 3`. -/
theorem replace_cursor_counterexample :
    (formatBlockContent (sampleEnv 0 "javascript" Awaited.rejected)
        (sampleView "x=1" 3)).ret = Ret.bool true
    ∧ (formatBlockContent (sampleEnv 0 "javascript" Awaited.rejected)
        (sampleView "x=1" 3)).view.state.doc = utf16 "x = 1;\n"
    ∧ ((formatBlockContent (sampleEnv 0 "javascript" Awaited.rejected)
        (sampleView "x=1" 3)).view.state.head : Int) - 0 = 7
    ∧ ((formatBlockContent (sampleEnv 0 "javascript" Awaited.rejected)
        (sampleView "x=1" 3)).view.state.head : Int) - 0
        ≠ min (((sampleView "x=1" 3).state.head : Int) - 0)
            ((utf16 "x = 1;\n").length : Int) := by
  decide

/-- C1 as amended, at concrete inputs: (a) the result `HI` replaces the block
`abcd` with the cursor at offset 3, which moves to offset `min 3 2 = 2`; (b) the
remote formatter turns `func main(){}` into `func main() {}\n` with the cursor
at offset 5, which stays at `min 5 15 = 5`; (c) the local formatter turns
`x=1` into `x = 1;\n` with the cursor at offset 1 and reports the offset 2. -/
theorem replace_cursor_witness :
    ((editorRunBlockFunction (sampleEnv 0 "text" Awaited.rejected) (sampleView "abcd" 3)
        sampleFunction true).view.state.head : Int) - 0 = 2
    ∧ ((formatBlockContent
        (sampleEnv 0 "golang"
          (okResponse { Body := utf16 "func main() {}\n", Error := [], Errors := [],
                        Events := [] }))
        (sampleView "func main(){}" 5)).view.state.head : Int) - 0 = 5
    ∧ ((formatBlockContent (sampleEnv 0 "javascript" Awaited.rejected)
        (sampleView "x=1" 1)).view.state.head : Int) - 0 = 2 :=
  ⟨((replace_cursor (sampleEnv 0 "text" Awaited.rejected) (sampleView "abcd" 3)
        sampleFunction _ _ _ rfl rfl rfl (by decide)).1 (by decide)).2.2.1.trans (by decide),
   ((replace_cursor
        (sampleEnv 0 "golang"
          (okResponse { Body := utf16 "func main() {}\n", Error := [], Errors := [],
                        Events := [] }))
        (sampleView "func main(){}" 5) sampleFunction _ _ _ rfl rfl rfl (by decide)).2.1
        (by decide) (utf16 "func main() {}\n") (by decide) (by decide)).2.2.1.trans (by decide),
   ((replace_cursor (sampleEnv 0 "javascript" Awaited.rejected) (sampleView "x=1" 1)
        sampleFunction _ _ _ rfl rfl rfl (by decide)).2.2
        (by decide) samplePrettier { parser := utf16 "babel", plugins := [] }
        { formatted := utf16 "x = 1;\n", cursorOffset := 2 } rfl rfl (by decide)
        (by decide)).2.2.1.trans (by decide)⟩

/-! ## The remote formatter -/

theorem formatGo_unchanged (env : Env) (s : Str) (rsp : Response) (res : Json)
    (hfetch : env.fetch (utf16 "/api/goplay/fmt") s = Awaited.fulfilled rsp)
    (hjson : rsp.json = Awaited.fulfilled res) (hbody : res.Body = s) :
    formatGo env s = Awaited.fulfilled none := by
  unfold formatGo
  simp only [hfetch, hjson, hbody]
  cases rsp.ok
  · simp
  · by_cases he : res.Error = []
    · simp [he]
    · simp [he]

theorem formatGo_formatted (env : Env) (s : Str) (rsp : Response) (res : Json)
    (hfetch : env.fetch (utf16 "/api/goplay/fmt") s = Awaited.fulfilled rsp)
    (hok : rsp.ok = true) (hjson : rsp.json = Awaited.fulfilled res)
    (herr : res.Error = []) (hbody : res.Body ≠ s) :
    formatGo env s = Awaited.fulfilled (some res.Body) := by
  unfold formatGo
  simp [hfetch, hjson, hbody, hok, herr]

/-- What `formatGo` yields when the network call throws, the response is not
ok, the body is not JSON, the service reports an error, or the text comes back
unchanged: a rejection or `null`. -/
theorem formatGo_failure (env : Env) (s : Str)
    (h : env.fetch (utf16 "/api/goplay/fmt") s = Awaited.rejected
      ∨ ∃ rsp, env.fetch (utf16 "/api/goplay/fmt") s = Awaited.fulfilled rsp
          ∧ (rsp.ok = false ∨ rsp.json = Awaited.rejected
            ∨ ∃ res, rsp.json = Awaited.fulfilled res ∧ (res.Error ≠ [] ∨ res.Body = s))) :
    formatGo env s = Awaited.rejected ∨ formatGo env s = Awaited.fulfilled none := by
  rcases h with h | ⟨rsp, hf, h⟩
  · left
    unfold formatGo
    simp [h]
  · rcases h with h | h | ⟨res, hj, h⟩
    · right
      unfold formatGo
      simp [hf, h]
    · cases hok : rsp.ok
      · right
        unfold formatGo
        simp [hf, hok]
      · left
        unfold formatGo
        simp [hf, hok, h]
    · rcases h with h | h
      · cases hok : rsp.ok
        · right
          unfold formatGo
          simp [hf, hok]
        · right
          unfold formatGo
          simp [hf, hok, hj, h]
      · right
        exact formatGo_unchanged env s rsp res hf hj h

theorem setReadOnly_toggle_state (view : EditorView) (hw : view.state.readOnly = false) :
    (setReadOnly (setReadOnly view true) false).state = view.state := by
  cases view with
  | mk state effects =>
    cases state with
    | mk doc head readOnly tabSize =>
      simp only [setReadOnly] at hw ⊢
      subst hw
      rfl

theorem setReadOnly_toggle_effects (view : EditorView) :
    (setReadOnly (setReadOnly view true) false).effects
      = view.effects ++ [Effect.setReadOnly true, Effect.setReadOnly false] := by
  simp [setReadOnly]

theorem formatBlockContent_golang_fail (env : Env) (view : EditorView)
    (hw : view.state.readOnly = false)
    (hsup : env.langSupportsFormat
      (env.getLanguage (getActiveNoteBlock env view.state).language.name) = true)
    (htok : (env.getLanguage (getActiveNoteBlock env view.state).language.name).token
      = utf16 "golang")
    (h : formatGo env (view.state.sliceDoc (getActiveNoteBlock env view.state).content.from_
          (getActiveNoteBlock env view.state).content.to_) = Awaited.rejected
      ∨ formatGo env (view.state.sliceDoc (getActiveNoteBlock env view.state).content.from_
          (getActiveNoteBlock env view.state).content.to_) = Awaited.fulfilled none) :
    formatBlockContent env view
      = { ret := Ret.bool false, view := setReadOnly (setReadOnly view true) false } := by
  rw [formatBlockContent_golang_eq env view hw hsup htok]
  rcases h with h | h <;> rw [h]

theorem dispatched_append (es fs : List Effect) :
    dispatched (es ++ fs) = dispatched es ++ dispatched fs := by
  induction es with
  | nil => rfl
  | cons e es ih =>
    cases e with
    | setReadOnly b => simpa [dispatched] using ih
    | dispatch spec => simpa [dispatched] using ih

theorem formatBlockContent_golang_ok (env : Env) (view : EditorView) (s : Str)
    (hw : view.state.readOnly = false)
    (hsup : env.langSupportsFormat
      (env.getLanguage (getActiveNoteBlock env view.state).language.name) = true)
    (htok : (env.getLanguage (getActiveNoteBlock env view.state).language.name).token
      = utf16 "golang")
    (hvalid : (getActiveNoteBlock env view.state).content.from_
        ≤ (getActiveNoteBlock env view.state).content.to_
      ∧ (getActiveNoteBlock env view.state).content.to_ ≤ view.state.doc.length)
    (hs : formatGo env (view.state.sliceDoc (getActiveNoteBlock env view.state).content.from_
          (getActiveNoteBlock env view.state).content.to_) = Awaited.fulfilled (some s))
    (hne : s ≠ []) (hcr : 13 ∉ s) :
    formatBlockContent env view =
      { ret := Ret.bool true,
        view :=
          { state := { view.state with
              doc := view.state.doc.take (getActiveNoteBlock env view.state).content.from_ ++ s
                ++ view.state.doc.drop (getActiveNoteBlock env view.state).content.to_,
              head := (((getActiveNoteBlock env view.state).content.from_ : Int)
                + min ((view.state.head : Int)
                    - ((getActiveNoteBlock env view.state).content.from_ : Int))
                  (s.length : Int)).toNat },
            effects := view.effects ++
              [Effect.setReadOnly true, Effect.setReadOnly false,
                Effect.dispatch (replaceSpec (getActiveNoteBlock env view.state) s
                  ((view.state.head : Int)
                    - ((getActiveNoteBlock env view.state).content.from_ : Int)))] } } := by
  rw [formatBlockContent_golang_eq env view hw hsup htok, hs]
  simp only [if_neg hne]
  rw [setReadOnly_toggle_state view hw, update_of_valid]
  · simp only [EditorView.dispatch, setReadOnly_toggle_effects, replaceSpec, List.append_assoc,
      List.cons_append, List.nil_append]
  · exact hcr
  · exact hvalid.1
  · exact hvalid.2
  · simp only [replaceSpec]
    omega
  · simp only [replaceSpec]
    rw [length_splice _ _ _ _ hvalid.2 hvalid.1]
    push_cast
    omega

/-- C5 fails for an empty body and for a body with a carriage return.  For the
block `x` in language golang and an ok response with empty `Error`: the body
`""`, which differs from `x`, makes the operation return false and the document
keeps its text; the body `a\r\nb` is put into the document as `a\nb`, so the
document after the edit is not the old one with the block replaced by the
body. -/
theorem formatBlockContent_replaces_counterexample :
    ((utf16 "" ≠ utf16 "x")
      ∧ (formatBlockContent
          (sampleEnv 0 "golang"
            (okResponse { Body := utf16 "", Error := [], Errors := [], Events := [] }))
          (sampleView "x" 0)).ret = Ret.bool false
      ∧ (formatBlockContent
          (sampleEnv 0 "golang"
            (okResponse { Body := utf16 "", Error := [], Errors := [], Events := [] }))
          (sampleView "x" 0)).view.state.doc = utf16 "x"
      ∧ dispatched (formatBlockContent
          (sampleEnv 0 "golang"
            (okResponse { Body := utf16 "", Error := [], Errors := [], Events := [] }))
          (sampleView "x" 0)).view.effects = [])
    ∧ ((utf16 "a\r\nb" ≠ utf16 "x")
      ∧ (formatBlockContent
          (sampleEnv 0 "golang"
            (okResponse { Body := utf16 "a\r\nb", Error := [], Errors := [], Events := [] }))
          (sampleView "x" 0)).view.state.doc = utf16 "a\nb"
      ∧ (formatBlockContent
          (sampleEnv 0 "golang"
            (okResponse { Body := utf16 "a\r\nb", Error := [], Errors := [], Events := [] }))
          (sampleView "x" 0)).view.state.doc
            ≠ (utf16 "x").take 0 ++ utf16 "a\r\nb" ++ (utf16 "x").drop 1) := by
  decide

/-- C5, as amended.  On a writable document whose active block, of content
`c`, lies inside the document and has a format-capable language of token
`golang`: if the formatting service answers ok with an empty `Error` and a
non-empty `Body` without carriage return that differs from `c`, then
`formatBlockContent` returns true, the read-only lock is set and released, and
the one edit dispatched replaces the range
`[block.content.from, block.content.to)` by `Body`, the text before and after
that range being kept. -/
theorem formatBlockContent_replaces (env : Env) (view : EditorView)
    (block : NoteBlock) (language : Language) (content : Str) (rsp : Response) (res : Json)
    (hblock : getActiveNoteBlock env view.state = block)
    (hlang : env.getLanguage block.language.name = language)
    (hcontent : view.state.sliceDoc block.content.from_ block.content.to_ = content)
    (hw : view.state.readOnly = false)
    (hsup : env.langSupportsFormat language = true)
    (htok : language.token = utf16 "golang")
    (hvalid : block.content.from_ ≤ block.content.to_
      ∧ block.content.to_ ≤ view.state.doc.length)
    (hfetch : env.fetch (utf16 "/api/goplay/fmt") content = Awaited.fulfilled rsp)
    (hok : rsp.ok = true) (hjson : rsp.json = Awaited.fulfilled res)
    (herr : res.Error = []) (hdiff : res.Body ≠ content) (hne : res.Body ≠ [])
    (hcr : 13 ∉ res.Body) :
    (formatBlockContent env view).ret = Ret.bool true
    ∧ (formatBlockContent env view).view.state.doc =
        view.state.doc.take block.content.from_ ++ res.Body
          ++ view.state.doc.drop block.content.to_
    ∧ (formatBlockContent env view).view.effects = view.effects ++
        [Effect.setReadOnly true, Effect.setReadOnly false,
          Effect.dispatch (replaceSpec block res.Body
            ((view.state.head : Int) - (block.content.from_ : Int)))]
    ∧ (formatBlockContent env view).view.state.readOnly = false := by
  subst hblock hlang hcontent
  rw [formatBlockContent_golang_ok env view res.Body hw hsup htok hvalid
    (formatGo_formatted env _ rsp res hfetch hok hjson herr hdiff) hne hcr]
  exact ⟨rfl, rfl, rfl, hw⟩

/-- C5 as amended, at the input of the scenario: the block `func main(){}`
is replaced by the body `func main() {}\n`. -/
theorem formatBlockContent_replaces_witness :
    (formatBlockContent
        (sampleEnv 1 "golang"
          (okResponse { Body := utf16 "func main() {}\n", Error := [], Errors := [],
                        Events := [] }))
        (sampleView "func main(){}\n" 5)).ret = Ret.bool true
    ∧ (formatBlockContent
        (sampleEnv 1 "golang"
          (okResponse { Body := utf16 "func main() {}\n", Error := [], Errors := [],
                        Events := [] }))
        (sampleView "func main(){}\n" 5)).view.state.doc = utf16 "func main() {}\n\n" :=
  have h := formatBlockContent_replaces
    (sampleEnv 1 "golang"
      (okResponse { Body := utf16 "func main() {}\n", Error := [], Errors := [],
                    Events := [] }))
    (sampleView "func main(){}\n" 5) _ _ _
    { ok := true, status := 200, statusText := utf16 "OK",
      json := Awaited.fulfilled
        { Body := utf16 "func main() {}\n", Error := [], Errors := [], Events := [] } }
    { Body := utf16 "func main() {}\n", Error := [], Errors := [], Events := [] }
    rfl rfl rfl rfl rfl (by decide) (by decide) rfl rfl rfl rfl (by decide) (by decide)
    (by decide)
  ⟨h.1, h.2.1.trans (by decide)⟩

/-! ## The remote formatter: unchanged text and the read-only lock -/

theorem formatBlockContent_unchanged_aux (env : Env) (view : EditorView)
    (rsp : Response) (res : Json)
    (htok : (env.getLanguage (getActiveNoteBlock env view.state).language.name).token
      = utf16 "golang")
    (hfetch : env.fetch (utf16 "/api/goplay/fmt")
      (view.state.sliceDoc (getActiveNoteBlock env view.state).content.from_
        (getActiveNoteBlock env view.state).content.to_) = Awaited.fulfilled rsp)
    (hjson : rsp.json = Awaited.fulfilled res)
    (hbody : res.Body = view.state.sliceDoc (getActiveNoteBlock env view.state).content.from_
        (getActiveNoteBlock env view.state).content.to_) :
    (formatBlockContent env view).ret = Ret.bool false
    ∧ (formatBlockContent env view).view.state = view.state
    ∧ dispatched (formatBlockContent env view).view.effects = dispatched view.effects := by
  cases hw : view.state.readOnly
  · cases hsup : env.langSupportsFormat
        (env.getLanguage (getActiveNoteBlock env view.state).language.name)
    · rw [formatBlockContent_gate env view (Or.inr hsup)]
      exact ⟨rfl, rfl, rfl⟩
    · rw [formatBlockContent_golang_fail env view hw hsup htok
        (Or.inr (formatGo_unchanged env _ rsp res hfetch hjson hbody))]
      refine ⟨rfl, setReadOnly_toggle_state view hw, ?_⟩
      simp only [setReadOnly_toggle_effects, dispatched_append]
      simp [dispatched]
  · rw [formatBlockContent_gate env view (Or.inl hw)]
    exact ⟨rfl, rfl, rfl⟩

theorem doc_eq_splice_slice (state : EditorState) (a b : Nat) (hab : a ≤ b) :
    state.doc = state.doc.take a ++ state.sliceDoc a b ++ state.doc.drop b := by
  unfold EditorState.sliceDoc
  have h1 : (state.doc.drop a).take (b - a) ++ state.doc.drop b = state.doc.drop a := by
    have h2 : state.doc.drop b = (state.doc.drop a).drop (b - a) := by
      rw [List.drop_drop]
      congr 1
      omega
    rw [h2, List.take_append_drop]
  rw [List.append_assoc, h1, List.take_append_drop]

/-- C6. (1) For a block of language token `golang` with content `c`, if the
formatting service returns a body equal to `c`, `formatBlockContent` returns
false, dispatches no edit and leaves the editor state (document text, cursor,
read-only flag) as it was.  (2) In particular, after a first call that
replaced the block by the body `b`, a second call on the replaced block for
which the service again returns `b` returns false and changes nothing.  (3) A
first call answered with a body `b` without carriage return does replace the
block by `b`. -/
theorem formatBlockContent_unchanged (env : Env) :
    (∀ (view : EditorView) (block : NoteBlock) (language : Language) (c : Str)
        (rsp : Response) (res : Json),
      getActiveNoteBlock env view.state = block →
      env.getLanguage block.language.name = language →
      view.state.sliceDoc block.content.from_ block.content.to_ = c →
      language.token = utf16 "golang" →
      env.fetch (utf16 "/api/goplay/fmt") c = Awaited.fulfilled rsp →
      rsp.json = Awaited.fulfilled res →
      res.Body = c →
        (formatBlockContent env view).ret = Ret.bool false
        ∧ (formatBlockContent env view).view.state = view.state
        ∧ dispatched (formatBlockContent env view).view.effects = dispatched view.effects)
    ∧ (∀ (view : EditorView) (block : NoteBlock) (language : Language) (c b : Str)
        (rsp1 rsp2 : Response) (res1 res2 : Json),
      getActiveNoteBlock env view.state = block →
      env.getLanguage block.language.name = language →
      view.state.sliceDoc block.content.from_ block.content.to_ = c →
      view.state.readOnly = false →
      env.langSupportsFormat language = true →
      language.token = utf16 "golang" →
      block.content.from_ ≤ block.content.to_ ∧ block.content.to_ ≤ view.state.doc.length →
      env.fetch (utf16 "/api/goplay/fmt") c = Awaited.fulfilled rsp1 →
      rsp1.ok = true → rsp1.json = Awaited.fulfilled res1 → res1.Error = [] →
      res1.Body = b → b ≠ c → b ≠ [] →
      (formatBlockContent env view).view.state.doc =
        view.state.doc.take block.content.from_ ++ b
          ++ view.state.doc.drop block.content.to_ →
      getActiveNoteBlock env (formatBlockContent env view).view.state
        = { block with content :=
              { from_ := block.content.from_, to_ := block.content.from_ + b.length } } →
      env.fetch (utf16 "/api/goplay/fmt") b = Awaited.fulfilled rsp2 →
      rsp2.json = Awaited.fulfilled res2 →
      res2.Body = b →
        (formatBlockContent env view).ret = Ret.bool true
        ∧ (formatBlockContent env (formatBlockContent env view).view).ret = Ret.bool false
        ∧ (formatBlockContent env (formatBlockContent env view).view).view.state
            = (formatBlockContent env view).view.state
        ∧ dispatched (formatBlockContent env (formatBlockContent env view).view).view.effects
            = dispatched (formatBlockContent env view).view.effects)
    ∧ (∀ (view : EditorView) (block : NoteBlock) (language : Language) (c b : Str)
        (rsp1 : Response) (res1 : Json),
      getActiveNoteBlock env view.state = block →
      env.getLanguage block.language.name = language →
      view.state.sliceDoc block.content.from_ block.content.to_ = c →
      view.state.readOnly = false →
      env.langSupportsFormat language = true →
      language.token = utf16 "golang" →
      block.content.from_ ≤ block.content.to_ ∧ block.content.to_ ≤ view.state.doc.length →
      env.fetch (utf16 "/api/goplay/fmt") c = Awaited.fulfilled rsp1 →
      rsp1.ok = true → rsp1.json = Awaited.fulfilled res1 → res1.Error = [] →
      res1.Body = b → b ≠ c → b ≠ [] → 13 ∉ b →
        (formatBlockContent env view).ret = Ret.bool true
        ∧ (formatBlockContent env view).view.state.doc =
            view.state.doc.take block.content.from_ ++ b
              ++ view.state.doc.drop block.content.to_) := by
  refine ⟨?_, ?_, ?_⟩
  · intro view block language c rsp res hblock hlang hc htok hfetch hjson hbody
    subst hblock hlang hc
    exact formatBlockContent_unchanged_aux env view rsp res htok hfetch hjson hbody
  · intro view block language c b rsp1 rsp2 res1 res2 hblock hlang hc hw hsup htok hvalid
      hfetch1 hok1 hjson1 herr1 hbody1 hbc hb0 hdoc hblock2 hfetch2 hjson2 hbody2
    subst hblock hlang hc hbody1
    have heq := formatBlockContent_golang_eq env view hw hsup htok
    rw [formatGo_formatted env _ rsp1 res1 hfetch1 hok1 hjson1 herr1 hbc] at heq
    simp only [if_neg hb0] at heq
    have hret : (formatBlockContent env view).ret = Ret.bool true := by
      cases hu : (setReadOnly (setReadOnly view true) false).state.update
          (replaceSpec (getActiveNoteBlock env view.state) res1.Body
            ((view.state.head : Int)
              - ((getActiveNoteBlock env view.state).content.from_ : Int))) with
      | none =>
        exfalso
        rw [hu] at heq
        rw [heq] at hdoc
        simp only [setReadOnly] at hdoc
        have h3 := (doc_eq_splice_slice view.state _ _ hvalid.1).symm.trans hdoc
        have h4 := List.append_cancel_left (List.append_cancel_right h3)
        exact hbc h4.symm
      | some tr =>
        rw [hu] at heq
        rw [heq]
    have hslice : (formatBlockContent env view).view.state.sliceDoc
        (getActiveNoteBlock env (formatBlockContent env view).view.state).content.from_
        (getActiveNoteBlock env (formatBlockContent env view).view.state).content.to_
        = res1.Body := by
      rw [hblock2]
      simp only [EditorState.sliceDoc, hdoc]
      exact slice_splice _ _ _ _ (le_trans hvalid.1 hvalid.2)
    have h2 := formatBlockContent_unchanged_aux env (formatBlockContent env view).view rsp2 res2
      (by rw [hblock2]; exact htok) (by rw [hslice]; exact hfetch2) hjson2
      (by rw [hslice]; exact hbody2)
    exact ⟨hret, h2⟩
  · intro view block language c b rsp1 res1 hblock hlang hc hw hsup htok hvalid
      hfetch1 hok1 hjson1 herr1 hbody1 hbc hb0 hcr
    subst hblock hlang hc hbody1
    rw [formatBlockContent_golang_ok env view res1.Body hw hsup htok hvalid
      (formatGo_formatted env _ rsp1 res1 hfetch1 hok1 hjson1 herr1 hbc) hb0 hcr]
    exact ⟨rfl, rfl⟩

/-- C6 at a concrete input: the block `func main(){}` is replaced by
`func main() {}\n` in a first call; a second call, answered with the same
body, returns false and keeps the document. -/
theorem formatBlockContent_unchanged_witness :
    (formatBlockContent
        (sampleEnv 0 "golang"
          (okResponse { Body := utf16 "func main() {}\n", Error := [], Errors := [],
                        Events := [] }))
        (sampleView "func main(){}" 5)).ret = Ret.bool true
    ∧ (formatBlockContent
        (sampleEnv 0 "golang"
          (okResponse { Body := utf16 "func main() {}\n", Error := [], Errors := [],
                        Events := [] }))
        (formatBlockContent
          (sampleEnv 0 "golang"
            (okResponse { Body := utf16 "func main() {}\n", Error := [], Errors := [],
                          Events := [] }))
          (sampleView "func main(){}" 5)).view).ret = Ret.bool false
    ∧ (formatBlockContent
        (sampleEnv 0 "golang"
          (okResponse { Body := utf16 "func main() {}\n", Error := [], Errors := [],
                        Events := [] }))
        (formatBlockContent
          (sampleEnv 0 "golang"
            (okResponse { Body := utf16 "func main() {}\n", Error := [], Errors := [],
                          Events := [] }))
          (sampleView "func main(){}" 5)).view).view.state.doc = utf16 "func main() {}\n" :=
  have h := (formatBlockContent_unchanged
    (sampleEnv 0 "golang"
      (okResponse { Body := utf16 "func main() {}\n", Error := [], Errors := [],
                    Events := [] }))).2.1
    (sampleView "func main(){}" 5) _ _ _ (utf16 "func main() {}\n")
    { ok := true, status := 200, statusText := utf16 "OK",
      json := Awaited.fulfilled
        { Body := utf16 "func main() {}\n", Error := [], Errors := [], Events := [] } }
    { ok := true, status := 200, statusText := utf16 "OK",
      json := Awaited.fulfilled
        { Body := utf16 "func main() {}\n", Error := [], Errors := [], Events := [] } }
    { Body := utf16 "func main() {}\n", Error := [], Errors := [], Events := [] }
    { Body := utf16 "func main() {}\n", Error := [], Errors := [], Events := [] }
    rfl rfl rfl rfl rfl (by decide) (by decide) rfl rfl rfl rfl rfl (by decide) (by decide)
    (by decide) (by decide) rfl rfl rfl
  ⟨h.1, h.2.1, (congrArg EditorState.doc h.2.2.1).trans (by decide)⟩

/-- C7. When `formatBlockContent` reaches the remote-formatter branch (writable
document, format-capable language of token `golang`), the read-only lock set
before the network call is released on every exit path: the effects of the
call start with `setReadOnly(true)`, `setReadOnly(false)`, the lock is not set
again, and the view ends writable.  When the network call throws, the response
is not ok or is not JSON, the service reports an error or returns the text
unchanged, the operation returns false, dispatches no edit and leaves the
editor state as it was. -/
theorem formatBlockContent_releases_lock (env : Env) (view : EditorView)
    (block : NoteBlock) (language : Language) (content : Str)
    (hblock : getActiveNoteBlock env view.state = block)
    (hlang : env.getLanguage block.language.name = language)
    (hcontent : view.state.sliceDoc block.content.from_ block.content.to_ = content)
    (hw : view.state.readOnly = false)
    (hsup : env.langSupportsFormat language = true)
    (htok : language.token = utf16 "golang") :
    (formatBlockContent env view).view.state.readOnly = false
    ∧ (∃ rest : List Effect,
        (formatBlockContent env view).view.effects
          = view.effects ++ [Effect.setReadOnly true, Effect.setReadOnly false] ++ rest
        ∧ ∀ e ∈ rest, e ≠ Effect.setReadOnly true)
    ∧ ((env.fetch (utf16 "/api/goplay/fmt") content = Awaited.rejected
        ∨ ∃ rsp, env.fetch (utf16 "/api/goplay/fmt") content = Awaited.fulfilled rsp
            ∧ (rsp.ok = false ∨ rsp.json = Awaited.rejected
              ∨ ∃ res, rsp.json = Awaited.fulfilled res
                  ∧ (res.Error ≠ [] ∨ res.Body = content))) →
        (formatBlockContent env view).ret = Ret.bool false
        ∧ (formatBlockContent env view).view.effects
            = view.effects ++ [Effect.setReadOnly true, Effect.setReadOnly false]
        ∧ (formatBlockContent env view).view.state = view.state) := by
  subst hblock hlang hcontent
  have hfail : formatBlockContent env view
        = { ret := Ret.bool false, view := setReadOnly (setReadOnly view true) false } →
      (formatBlockContent env view).view.state.readOnly = false
      ∧ (∃ rest : List Effect,
          (formatBlockContent env view).view.effects
            = view.effects ++ [Effect.setReadOnly true, Effect.setReadOnly false] ++ rest
          ∧ ∀ e ∈ rest, e ≠ Effect.setReadOnly true) := by
    intro h
    rw [h]
    exact ⟨rfl, [], by simp [setReadOnly_toggle_effects], by simp⟩
  have hAB : (formatBlockContent env view).view.state.readOnly = false
      ∧ (∃ rest : List Effect,
          (formatBlockContent env view).view.effects
            = view.effects ++ [Effect.setReadOnly true, Effect.setReadOnly false] ++ rest
          ∧ ∀ e ∈ rest, e ≠ Effect.setReadOnly true) := by
    have heq := formatBlockContent_golang_eq env view hw hsup htok
    cases hgo : formatGo env (view.state.sliceDoc
        (getActiveNoteBlock env view.state).content.from_
        (getActiveNoteBlock env view.state).content.to_) with
    | rejected => rw [hgo] at heq; exact hfail heq
    | fulfilled s =>
      cases s with
      | none => rw [hgo] at heq; exact hfail heq
      | some s =>
        rw [hgo] at heq
        simp only [] at heq
        by_cases hs : s = []
        · rw [if_pos hs] at heq; exact hfail heq
        · rw [if_neg hs] at heq
          cases hu : (setReadOnly (setReadOnly view true) false).state.update
              (replaceSpec (getActiveNoteBlock env view.state) s
                ((view.state.head : Int)
                  - ((getActiveNoteBlock env view.state).content.from_ : Int))) with
          | none =>
            rw [hu] at heq
            rw [heq]
            exact ⟨rfl, [], by simp [setReadOnly_toggle_effects], by simp⟩
          | some tr =>
            rw [hu] at heq
            rw [heq]
            obtain ⟨_, _, _, h4⟩ := replace_step _ _ _ _ _ hu
            refine ⟨h4, [Effect.dispatch tr.spec], ?_, ?_⟩
            · simp [EditorView.dispatch, setReadOnly_toggle_effects]
            · intro e he
              simp only [List.mem_singleton] at he
              subst he
              simp
  refine ⟨hAB.1, hAB.2, ?_⟩
  · intro h
    rw [formatBlockContent_golang_fail env view hw hsup htok (formatGo_failure env _ h)]
    exact ⟨rfl, setReadOnly_toggle_effects view, setReadOnly_toggle_state view hw⟩

/-- C7 at a concrete input: the network call throws; the lock is set and
released, nothing else happens and the operation returns false. -/
theorem formatBlockContent_releases_lock_witness :
    (formatBlockContent (sampleEnv 0 "golang" Awaited.rejected)
        (sampleView "func main(){}" 5)).ret = Ret.bool false
    ∧ (formatBlockContent (sampleEnv 0 "golang" Awaited.rejected)
        (sampleView "func main(){}" 5)).view.effects
        = [Effect.setReadOnly true, Effect.setReadOnly false]
    ∧ (formatBlockContent (sampleEnv 0 "golang" Awaited.rejected)
        (sampleView "func main(){}" 5)).view.state.readOnly = false :=
  have h := formatBlockContent_releases_lock (sampleEnv 0 "golang" Awaited.rejected)
    (sampleView "func main(){}" 5) _ _ _ rfl rfl rfl rfl rfl (by decide)
  ⟨(h.2.2 (Or.inl rfl)).1, (h.2.2 (Or.inl rfl)).2.1, h.1⟩

/-! ## Running the active block -/

theorem joinLines_cons_append (a x : Str) (rest : List Str) :
    joinLines ((a ++ utf16 "\n" ++ x) :: rest) = a ++ utf16 "\n" ++ joinLines (x :: rest) := by
  cases rest with
  | nil => rfl
  | cons y ys => simp [joinLines, List.append_assoc]

theorem runGoEvents_of_ne_nil (evs : List Event) :
    ∀ s : Str, s ≠ [] → runGoEvents s evs = joinLines (s :: evs.map eventText) := by
  induction evs with
  | nil => intro s _; rfl
  | cons ev evs ih =>
    intro s hs
    have hne : s ++ utf16 "\n" ++ eventText ev ≠ [] := by
      intro h
      have := congrArg List.length h
      simp only [List.length_append, List.length_nil] at this
      have hl : 0 < s.length := List.length_pos.mpr hs
      omega
    simp only [runGoEvents, if_pos hs, List.map_cons]
    rw [ih _ hne, joinLines_cons_append]
    rfl

/-- The loop of `runGo` joins the texts of the events with line feeds, after
the leading events whose text is empty. -/
theorem runGoEvents_eq_joinLines (evs : List Event) :
    runGoEvents [] evs = joinLines ((evs.map eventText).dropWhile List.isEmpty) := by
  induction evs with
  | nil => rfl
  | cons ev evs ih =>
    by_cases he : eventText ev = []
    · simp only [runGoEvents, List.map_cons, he]
      simpa [List.dropWhile] using ih
    · have hd : ((eventText ev :: evs.map eventText).dropWhile List.isEmpty)
          = eventText ev :: evs.map eventText := by
        cases h : eventText ev with
        | nil => exact absurd h he
        | cons c t => simp [List.dropWhile]
      simp only [runGoEvents, List.map_cons, hd]
      simpa using runGoEvents_of_ne_nil evs (eventText ev) he

theorem runBlockContent_golang_eq (env : Env) (view : EditorView)
    (hrun : env.langSupportsRun
      (env.getLanguage (getActiveNoteBlock env view.state).language.name) = true)
    (htok : (env.getLanguage (getActiveNoteBlock env view.state).language.name).token
      = utf16 "golang") :
    runBlockContent env view =
      match runGo env (view.state.sliceDoc (getActiveNoteBlock env view.state).content.from_
          (getActiveNoteBlock env view.state).content.to_) with
      | Awaited.rejected => { ret := Ret.bool false, view := setReadOnly view true }
      | Awaited.fulfilled s =>
        if s = [] then
          { ret := Ret.bool false, view := setReadOnly (setReadOnly view true) false }
        else appendOutput env (setReadOnly (setReadOnly view true) false) s := by
  unfold runBlockContent
  simp only [hrun, htok, Bool.not_true, Bool.false_eq_true, if_false, if_true]

theorem digitChar_no_cr (d : Nat) : (13 : CodeUnit) ∉ utf16Char (Nat.digitChar d) := by
  by_cases h : d < 16
  · interval_cases d <;> decide
  · have hd : Nat.digitChar d = '*' := by
      unfold Nat.digitChar
      repeat rw [if_neg (by omega)]
    rw [hd]
    decide

theorem toDigitsCore_digits (b : Nat) :
    ∀ (fuel n : Nat) (ds : List Char), (∀ c ∈ ds, ∃ d, c = Nat.digitChar d) →
      ∀ c ∈ Nat.toDigitsCore b fuel n ds, ∃ d, c = Nat.digitChar d := by
  intro fuel
  induction fuel with
  | zero => intro n ds h; simpa [Nat.toDigitsCore] using h
  | succ fuel ih =>
    intro n ds h
    have hcons : ∀ c ∈ Nat.digitChar (n % b) :: ds, ∃ d, c = Nat.digitChar d := by
      intro c hc
      rcases List.mem_cons.mp hc with rfl | hc
      · exact ⟨_, rfl⟩
      · exact h c hc
    unfold Nat.toDigitsCore
    simp only []
    split_ifs
    · exact hcons
    · exact ih _ _ hcons

/-- The decimal rendering of a number has no carriage return. -/
theorem numberToString_no_cr (n : Nat) : (13 : CodeUnit) ∉ numberToString n := by
  unfold numberToString
  intro h
  obtain ⟨c, hc, hm⟩ := List.mem_flatMap.mp h
  obtain ⟨d, rfl⟩ := toDigitsCore_digits 10 _ _ [] (by simp) c hc
  exact digitChar_no_cr d hm

theorem header_no_cr :
    (13 : CodeUnit) ∉ utf16 "\n∞∞∞text-a\n" ++ utf16 "output of running the code:\n" := by
  decide

theorem appendOutput_toggled (env : Env) (view : EditorView) (output : Str)
    (hb : (getActiveNoteBlock env view.state).content.to_ ≤ view.state.doc.length)
    (hcr : 13 ∉ output) :
    appendOutput env (setReadOnly (setReadOnly view true) false) output =
      { ret := Ret.bool true,
        view :=
          { state := { view.state with
              doc := view.state.doc.take (getActiveNoteBlock env view.state).content.to_
                ++ outputBlock output
                ++ view.state.doc.drop (getActiveNoteBlock env view.state).content.to_,
              head := (getActiveNoteBlock env view.state).content.to_
                + (outputBlock output).length,
              readOnly := false },
            effects := view.effects ++
              [Effect.setReadOnly true, Effect.setReadOnly false,
                Effect.dispatch (insertSpec (getActiveNoteBlock env view.state).content.to_
                  (outputBlock output))] } } := by
  unfold appendOutput
  have hblock : getActiveNoteBlock env (setReadOnly (setReadOnly view true) false).state
      = getActiveNoteBlock env view.state := rfl
  simp only []
  rw [insertAfterActiveBlock_eq env _ _ rfl (by rw [hblock]; exact hb)
    (by
      intro hmem
      rcases List.mem_append.mp hmem with h | h
      · exact header_no_cr h
      · exact hcr h)]
  have hblock2 : getActiveNoteBlock env
      { doc := view.state.doc, head := view.state.head, readOnly := false,
        tabSize := view.state.tabSize } = getActiveNoteBlock env view.state := rfl
  simp only [outputBlock, setReadOnly, List.append_assoc, List.cons_append,
    List.nil_append, hblock2]
  simp

theorem runGo_events (env : Env) (code : Str) (rsp : Response) (res : Json)
    (hfetch : env.fetch (utf16 "/api/goplay/compile") code = Awaited.fulfilled rsp)
    (hok : rsp.ok = true) (hjson : rsp.json = Awaited.fulfilled res)
    (herr : res.Error = []) (herrs : res.Errors = []) :
    runGo env code = Awaited.fulfilled (runGoEvents [] res.Events) := by
  unfold runGo
  simp [hfetch, hok, hjson, getError, herr, herrs]

theorem runGo_not_ok (env : Env) (code : Str) (rsp : Response)
    (hfetch : env.fetch (utf16 "/api/goplay/compile") code = Awaited.fulfilled rsp)
    (hok : rsp.ok = false) :
    runGo env code = Awaited.fulfilled
      (utf16 "Error: " ++ numberToString rsp.status ++ utf16 " " ++ rsp.statusText) := by
  unfold runGo
  simp [hfetch, hok]

theorem runGo_error (env : Env) (code : Str) (rsp : Response) (res : Json)
    (hfetch : env.fetch (utf16 "/api/goplay/compile") code = Awaited.fulfilled rsp)
    (hok : rsp.ok = true) (hjson : rsp.json = Awaited.fulfilled res)
    (herr : getError res ≠ []) :
    runGo env code = Awaited.fulfilled (getError res) := by
  unfold runGo
  simp [hfetch, hok, hjson, herr]

theorem runGo_rejected (env : Env) (code : Str)
    (h : env.fetch (utf16 "/api/goplay/compile") code = Awaited.rejected
      ∨ ∃ rsp, env.fetch (utf16 "/api/goplay/compile") code = Awaited.fulfilled rsp
          ∧ rsp.ok = true ∧ rsp.json = Awaited.rejected) :
    runGo env code = Awaited.rejected := by
  unfold runGo
  rcases h with h | ⟨rsp, hf, hok, hj⟩
  · simp [h]
  · simp [hf, hok, hj]

theorem dropWhile_isEmpty_of_forall_ne (xs : List Str) (h : ∀ x ∈ xs, x ≠ []) :
    xs.dropWhile List.isEmpty = xs := by
  cases xs with
  | nil => rfl
  | cons x xs =>
    have hx : x ≠ [] := h x (List.mem_cons_self _ _)
    cases x with
    | nil => exact absurd rfl hx
    | cons c t => simp [List.dropWhile]

theorem header_eq :
    utf16 "\n∞∞∞text-a\n" ++ utf16 "output of running the code:\n"
      = utf16 "\n∞∞∞text-a\noutput of running the code:\n" := by
  decide

theorem outputBlock_eq (output : Str) :
    outputBlock output = utf16 "\n∞∞∞text-a\noutput of running the code:\n" ++ output := by
  unfold outputBlock
  rw [header_eq]

theorem runBlockContent_output (env : Env) (view : EditorView) (s : Str)
    (hrun : env.langSupportsRun
      (env.getLanguage (getActiveNoteBlock env view.state).language.name) = true)
    (htok : (env.getLanguage (getActiveNoteBlock env view.state).language.name).token
      = utf16 "golang")
    (hb : (getActiveNoteBlock env view.state).content.to_ ≤ view.state.doc.length)
    (hs : runGo env (view.state.sliceDoc (getActiveNoteBlock env view.state).content.from_
          (getActiveNoteBlock env view.state).content.to_) = Awaited.fulfilled s)
    (hne : s ≠ []) (hcr : 13 ∉ s) :
    (runBlockContent env view).ret = Ret.bool true
    ∧ (runBlockContent env view).view.effects = view.effects ++
        [Effect.setReadOnly true, Effect.setReadOnly false,
          Effect.dispatch (insertSpec (getActiveNoteBlock env view.state).content.to_
            (utf16 "\n∞∞∞text-a\noutput of running the code:\n" ++ s))]
    ∧ (runBlockContent env view).view.state.doc =
        view.state.doc.take (getActiveNoteBlock env view.state).content.to_
          ++ (utf16 "\n∞∞∞text-a\noutput of running the code:\n" ++ s)
          ++ view.state.doc.drop (getActiveNoteBlock env view.state).content.to_
    ∧ (runBlockContent env view).view.state.head =
        (getActiveNoteBlock env view.state).content.to_
          + (utf16 "\n∞∞∞text-a\noutput of running the code:\n" ++ s).length
    ∧ (runBlockContent env view).view.state.readOnly = false := by
  rw [runBlockContent_golang_eq env view hrun htok, hs]
  simp only [if_neg hne]
  rw [appendOutput_toggled env view s hb hcr, outputBlock_eq]
  exact ⟨rfl, rfl, rfl, rfl, rfl⟩

theorem runBlockContent_no_output (env : Env) (view : EditorView)
    (hrun : env.langSupportsRun
      (env.getLanguage (getActiveNoteBlock env view.state).language.name) = true)
    (htok : (env.getLanguage (getActiveNoteBlock env view.state).language.name).token
      = utf16 "golang")
    (hs : runGo env (view.state.sliceDoc (getActiveNoteBlock env view.state).content.from_
          (getActiveNoteBlock env view.state).content.to_) = Awaited.fulfilled []) :
    (runBlockContent env view).ret = Ret.bool false
    ∧ dispatched (runBlockContent env view).view.effects = dispatched view.effects
    ∧ (runBlockContent env view).view.state.doc = view.state.doc := by
  rw [runBlockContent_golang_eq env view hrun htok, hs]
  simp only []
  rw [if_pos trivial]
  refine ⟨rfl, ?_, rfl⟩
  simp only [setReadOnly_toggle_effects, dispatched_append]
  simp [dispatched]

/-- C4 fails in three ways.  With no events the operation returns false and
appends nothing.  With the events `""` and `hi` of kind `stdout` it appends the
header followed by `hi`, not by the two messages joined by a line feed.  With
the event `a\r\nb`, whose line break the document counts as one code unit,
the cursor position lies outside the new document: the call throws and
appends nothing. -/
theorem runBlockContent_appends_output_counterexample :
    ((runBlockContent (sampleEnv 0 "golang" (eventsResponse []))
        (sampleView "package main" 0)).ret = Ret.bool false
      ∧ dispatched (runBlockContent (sampleEnv 0 "golang" (eventsResponse []))
        (sampleView "package main" 0)).view.effects = [])
    ∧ (dispatched (runBlockContent
          (sampleEnv 0 "golang" (eventsResponse [stdoutEvent "", stdoutEvent "hi"]))
          (sampleView "package main" 0)).view.effects
        = [insertSpec 12 (utf16 "\n∞∞∞text-a\noutput of running the code:\nhi")]
      ∧ utf16 "\n∞∞∞text-a\noutput of running the code:\nhi"
        ≠ utf16 "\n∞∞∞text-a\noutput of running the code:\n"
            ++ joinLines ([stdoutEvent "", stdoutEvent "hi"].map eventText))
    ∧ ((runBlockContent (sampleEnv 0 "golang" (eventsResponse [stdoutEvent "a\r\nb"]))
        (sampleView "package main" 0)).ret = Ret.threw
      ∧ dispatched (runBlockContent
          (sampleEnv 0 "golang" (eventsResponse [stdoutEvent "a\r\nb"]))
          (sampleView "package main" 0)).view.effects = []) := by
  decide

/-- C4, as amended.  For a run-capable block of language token `golang` that
ends inside the document and an ok response of the execution service whose
`Error` and `Errors` are empty, let `out` be the texts of the events (the
message, after the line `Stderr:` for an event of kind `stderr`), in order,
joined by line feeds after dropping the leading events whose text is empty
(all the events, when none has an empty text).  If `out` is not empty and has
no carriage return, `runBlockContent` returns true, sets and releases the read-only flag and
appends at `block.content.to`, as its only edit, the text
`\n∞∞∞text-a\noutput of running the code:\n` followed by `out`, with the
cursor at the end of it.  If `out` is empty it returns false and dispatches no
edit. -/
theorem runBlockContent_appends_output (env : Env) (view : EditorView)
    (block : NoteBlock) (lang : Language) (content : Str) (rsp : Response) (res : Json)
    (hblock : getActiveNoteBlock env view.state = block)
    (hlang : env.getLanguage block.language.name = lang)
    (hcontent : view.state.sliceDoc block.content.from_ block.content.to_ = content)
    (hrun : env.langSupportsRun lang = true)
    (htok : lang.token = utf16 "golang")
    (hb : block.content.to_ ≤ view.state.doc.length)
    (hfetch : env.fetch (utf16 "/api/goplay/compile") content = Awaited.fulfilled rsp)
    (hok : rsp.ok = true) (hjson : rsp.json = Awaited.fulfilled res)
    (herr : res.Error = []) (herrs : res.Errors = []) :
    (joinLines ((res.Events.map eventText).dropWhile List.isEmpty) ≠ [] →
      13 ∉ joinLines ((res.Events.map eventText).dropWhile List.isEmpty) →
      (runBlockContent env view).ret = Ret.bool true
      ∧ (runBlockContent env view).view.effects = view.effects ++
          [Effect.setReadOnly true, Effect.setReadOnly false,
            Effect.dispatch (insertSpec block.content.to_
              (utf16 "\n∞∞∞text-a\noutput of running the code:\n"
                ++ joinLines ((res.Events.map eventText).dropWhile List.isEmpty)))]
      ∧ (runBlockContent env view).view.state.doc =
          view.state.doc.take block.content.to_
            ++ (utf16 "\n∞∞∞text-a\noutput of running the code:\n"
                ++ joinLines ((res.Events.map eventText).dropWhile List.isEmpty))
            ++ view.state.doc.drop block.content.to_
      ∧ (runBlockContent env view).view.state.head =
          block.content.to_
            + (utf16 "\n∞∞∞text-a\noutput of running the code:\n"
                ++ joinLines ((res.Events.map eventText).dropWhile List.isEmpty)).length
      ∧ (runBlockContent env view).view.state.readOnly = false)
    ∧ (joinLines ((res.Events.map eventText).dropWhile List.isEmpty) = [] →
      (runBlockContent env view).ret = Ret.bool false
      ∧ dispatched (runBlockContent env view).view.effects = dispatched view.effects
      ∧ (runBlockContent env view).view.state.doc = view.state.doc)
    ∧ ((∀ ev ∈ res.Events, eventText ev ≠ []) →
      joinLines ((res.Events.map eventText).dropWhile List.isEmpty)
        = joinLines (res.Events.map eventText)) := by
  subst hblock hlang hcontent
  have hgo := runGo_events env _ rsp res hfetch hok hjson herr herrs
  rw [runGoEvents_eq_joinLines] at hgo
  refine ⟨fun hne hcr => runBlockContent_output env view _ hrun htok hb hgo hne hcr,
    fun he => ?_,
    fun hall => ?_⟩
  · rw [he] at hgo
    exact runBlockContent_no_output env view hrun htok hgo
  · rw [dropWhile_isEmpty_of_forall_ne]
    intro x hx
    obtain ⟨ev, hev, rfl⟩ := List.mem_map.mp hx
    exact hall ev hev

/-- C4 as amended, at the input of the scenario: the single event `hi` of
kind `stdout` appends `\n∞∞∞text-a\noutput of running the code:\nhi`. -/
theorem runBlockContent_appends_output_witness :
    (runBlockContent (sampleEnv 0 "golang" (eventsResponse [stdoutEvent "hi"]))
        (sampleView "package main" 0)).ret = Ret.bool true
    ∧ (runBlockContent (sampleEnv 0 "golang" (eventsResponse [stdoutEvent "hi"]))
        (sampleView "package main" 0)).view.state.doc
        = utf16 "package main\n∞∞∞text-a\noutput of running the code:\nhi" :=
  have h := (runBlockContent_appends_output
    (sampleEnv 0 "golang" (eventsResponse [stdoutEvent "hi"]))
    (sampleView "package main" 0) _ _ _
    { ok := true, status := 200, statusText := utf16 "OK",
      json := Awaited.fulfilled
        { Body := [], Error := [], Errors := [], Events := [stdoutEvent "hi"] } }
    { Body := [], Error := [], Errors := [], Events := [stdoutEvent "hi"] }
    rfl rfl rfl (by decide) (by decide) (by decide) rfl rfl rfl rfl rfl).1 (by decide)
    (by decide)
  ⟨h.1, h.2.2.1.trans (by decide)⟩

/-! ## Failures of the execution service -/

/-- C8 fails for a response that is not ok: with the status `500 Internal
Server Error` the operation returns true and appends the error text to the
document.  And an error text with a carriage return is not appended either:
with `Error` set to `a\r\nb` the cursor position lies outside the new
document, and the call throws after releasing the read-only flag. -/
theorem runBlockContent_failure_counterexample :
    (runBlockContent
        (sampleEnv 0 "golang"
          (Awaited.fulfilled
            { ok := false, status := 500, statusText := utf16 "Internal Server Error",
              json := Awaited.rejected }))
        (sampleView "package main" 0)).ret = Ret.bool true
    ∧ dispatched (runBlockContent
        (sampleEnv 0 "golang"
          (Awaited.fulfilled
            { ok := false, status := 500, statusText := utf16 "Internal Server Error",
              json := Awaited.rejected }))
        (sampleView "package main" 0)).view.effects
        = [insertSpec 12
            (utf16 "\n∞∞∞text-a\noutput of running the code:\nError: 500 Internal Server Error")]
    ∧ (runBlockContent
        (sampleEnv 0 "golang"
          (Awaited.fulfilled
            { ok := false, status := 500, statusText := utf16 "Internal Server Error",
              json := Awaited.rejected }))
        (sampleView "package main" 0)).view.state.doc
        = utf16 "package main\n∞∞∞text-a\noutput of running the code:\nError: 500 Internal Server Error"
    ∧ ((runBlockContent
        (sampleEnv 0 "golang"
          (okResponse { Body := [], Error := utf16 "a\r\nb", Errors := [], Events := [] }))
        (sampleView "package main" 0)).ret = Ret.threw
      ∧ (runBlockContent
        (sampleEnv 0 "golang"
          (okResponse { Body := [], Error := utf16 "a\r\nb", Errors := [], Events := [] }))
        (sampleView "package main" 0)).view.effects
          = [Effect.setReadOnly true, Effect.setReadOnly false]) := by
  decide

theorem getError_eq (res : Json) :
    getError res = if res.Error ≠ [] then res.Error else res.Errors := by
  unfold getError
  by_cases h1 : res.Error = []
  · by_cases h2 : res.Errors = []
    · simp [h1, h2]
    · simp [h1, h2]
  · simp [h1]

/-- When the network call of `runBlockContent` throws, the operation returns
with the read-only flag it set still set. -/
theorem runBlockContent_throw_keeps_lock (env : Env) (view : EditorView)
    (hrun : env.langSupportsRun
      (env.getLanguage (getActiveNoteBlock env view.state).language.name) = true)
    (htok : (env.getLanguage (getActiveNoteBlock env view.state).language.name).token
      = utf16 "golang")
    (h : runGo env (view.state.sliceDoc (getActiveNoteBlock env view.state).content.from_
          (getActiveNoteBlock env view.state).content.to_) = Awaited.rejected) :
    runBlockContent env view = { ret := Ret.bool false, view := setReadOnly view true }
    ∧ (runBlockContent env view).view.state.readOnly = true := by
  rw [runBlockContent_golang_eq env view hrun htok, h]
  exact ⟨rfl, rfl⟩

/-- C8, as amended.  For a run-capable block of language token `golang` that
ends inside the document: (1) a response that is not ok and (2) an ok response
whose `Error` or `Errors` field is not empty make `runBlockContent` release
the read-only flag, append as a new block the header followed by the error
text (`Error: <status> <statusText>`, resp. `Error` when not empty and `Errors`
otherwise) and return true, when that text has no carriage return; (3) an exception thrown by the network call makes
it return false without dispatching an edit, the document text being kept. -/
theorem runBlockContent_failure (env : Env) (view : EditorView)
    (block : NoteBlock) (lang : Language) (content : Str)
    (hblock : getActiveNoteBlock env view.state = block)
    (hlang : env.getLanguage block.language.name = lang)
    (hcontent : view.state.sliceDoc block.content.from_ block.content.to_ = content)
    (hrun : env.langSupportsRun lang = true)
    (htok : lang.token = utf16 "golang")
    (hb : block.content.to_ ≤ view.state.doc.length) :
    (∀ rsp : Response,
      env.fetch (utf16 "/api/goplay/compile") content = Awaited.fulfilled rsp →
      rsp.ok = false → 13 ∉ rsp.statusText →
        (runBlockContent env view).ret = Ret.bool true
        ∧ (runBlockContent env view).view.effects = view.effects ++
            [Effect.setReadOnly true, Effect.setReadOnly false,
              Effect.dispatch (insertSpec block.content.to_
                (utf16 "\n∞∞∞text-a\noutput of running the code:\n"
                  ++ (utf16 "Error: " ++ numberToString rsp.status ++ utf16 " "
                      ++ rsp.statusText)))]
        ∧ (runBlockContent env view).view.state.readOnly = false)
    ∧ (∀ (rsp : Response) (res : Json),
      env.fetch (utf16 "/api/goplay/compile") content = Awaited.fulfilled rsp →
      rsp.ok = true → rsp.json = Awaited.fulfilled res →
      (res.Error ≠ [] ∨ res.Errors ≠ []) →
      13 ∉ (if res.Error ≠ [] then res.Error else res.Errors) →
        (runBlockContent env view).ret = Ret.bool true
        ∧ (runBlockContent env view).view.effects = view.effects ++
            [Effect.setReadOnly true, Effect.setReadOnly false,
              Effect.dispatch (insertSpec block.content.to_
                (utf16 "\n∞∞∞text-a\noutput of running the code:\n"
                  ++ (if res.Error ≠ [] then res.Error else res.Errors)))]
        ∧ (runBlockContent env view).view.state.readOnly = false)
    ∧ ((env.fetch (utf16 "/api/goplay/compile") content = Awaited.rejected
        ∨ ∃ rsp, env.fetch (utf16 "/api/goplay/compile") content = Awaited.fulfilled rsp
            ∧ rsp.ok = true ∧ rsp.json = Awaited.rejected) →
        (runBlockContent env view).ret = Ret.bool false
        ∧ dispatched (runBlockContent env view).view.effects = dispatched view.effects
        ∧ (runBlockContent env view).view.state.doc = view.state.doc
        ∧ (runBlockContent env view).view.state.head = view.state.head) := by
  subst hblock hlang hcontent
  refine ⟨fun rsp hfetch hok hcr => ?_, fun rsp res hfetch hok hjson herr hcr => ?_,
    fun h => ?_⟩
  · have h := runBlockContent_output env view _ hrun htok hb
      (runGo_not_ok env _ rsp hfetch hok) (by simp [utf16, utf16Char])
      (by
        intro hmem
        rcases List.mem_append.mp hmem with h1 | h1
        · rcases List.mem_append.mp h1 with h2 | h2
          · rcases List.mem_append.mp h2 with h3 | h3
            · exact absurd h3 (by decide)
            · exact numberToString_no_cr _ h3
          · exact absurd h2 (by decide)
        · exact hcr h1)
    exact ⟨h.1, h.2.1, h.2.2.2.2⟩
  · have hne : getError res ≠ [] := by
      rw [getError_eq]
      rcases herr with h | h
      · simp [h]
      · by_cases h1 : res.Error = []
        · simp [h1, h]
        · simp [h1]
    have h := runBlockContent_output env view _ hrun htok hb
      (runGo_error env _ rsp res hfetch hok hjson hne) hne
      (by rw [getError_eq]; exact hcr)
    rw [getError_eq] at h
    exact ⟨h.1, h.2.1, h.2.2.2.2⟩
  · rw [(runBlockContent_throw_keeps_lock env view hrun htok (runGo_rejected env _ h)).1]
    refine ⟨rfl, ?_, rfl, rfl⟩
    simp [setReadOnly, dispatched_append, dispatched]

/-- C8 as amended, at concrete inputs: the error `build failed` reported by
the service is appended and the operation returns true; a network call that
throws makes it return false with the document kept. -/
theorem runBlockContent_failure_witness :
    ((runBlockContent
        (sampleEnv 0 "golang"
          (okResponse { Body := [], Error := utf16 "build failed", Errors := [],
                        Events := [] }))
        (sampleView "package main" 0)).ret = Ret.bool true
      ∧ dispatched (runBlockContent
        (sampleEnv 0 "golang"
          (okResponse { Body := [], Error := utf16 "build failed", Errors := [],
                        Events := [] }))
        (sampleView "package main" 0)).view.effects
        = [insertSpec 12 (utf16 "\n∞∞∞text-a\noutput of running the code:\nbuild failed")])
    ∧ ((runBlockContent (sampleEnv 0 "golang" Awaited.rejected)
        (sampleView "package main" 0)).ret = Ret.bool false
      ∧ (runBlockContent (sampleEnv 0 "golang" Awaited.rejected)
        (sampleView "package main" 0)).view.state.doc = utf16 "package main") :=
  have h1 := (runBlockContent_failure
    (sampleEnv 0 "golang"
      (okResponse { Body := [], Error := utf16 "build failed", Errors := [], Events := [] }))
    (sampleView "package main" 0) _ _ _ rfl rfl rfl (by decide) (by decide) (by decide)).2.1
    { ok := true, status := 200, statusText := utf16 "OK",
      json := Awaited.fulfilled
        { Body := [], Error := utf16 "build failed", Errors := [], Events := [] } }
    { Body := [], Error := utf16 "build failed", Errors := [], Events := [] }
    rfl rfl rfl (Or.inl (by decide)) (by decide)
  have h2 := (runBlockContent_failure (sampleEnv 0 "golang" Awaited.rejected)
    (sampleView "package main" 0) _ _ _ rfl rfl rfl (by decide) (by decide) (by decide)).2.2
    (Or.inl rfl)
  ⟨⟨h1.1, (congrArg dispatched h1.2.1).trans (by decide)⟩, h2.1, h2.2.2.1⟩

/-! ## Shortcut substitution -/

theorem getSubstitution_cons_of_ne (matched before after : Str) (c : CodeUnit) (t : Str)
    (hc : c ≠ 36) :
    getSubstitution matched before after (c :: t)
      = c :: getSubstitution matched before after t := by
  rw [getSubstitution]
  all_goals (intros; simp_all)

/-- A replacement text without `$` stands for itself. -/
theorem getSubstitution_of_no_dollar (matched before after : Str) (rep : Str)
    (h : dollar ∉ rep) : getSubstitution matched before after rep = rep := by
  induction rep with
  | nil => simp [getSubstitution]
  | cons c t ih =>
    have hc : c ≠ 36 := fun e => h (by simp [dollar, e])
    have ht : dollar ∉ t := fun e => h (List.mem_cons_of_mem _ e)
    rw [getSubstitution_cons_of_ne _ _ _ _ _ hc, ih ht]

theorem replaceAllAux_before (pat rep : Str) (h : dollar ∉ rep) :
    ∀ (s : Str) (k : Nat) (b b' : Str),
      replaceAllAux pat rep k b s = replaceAllAux pat rep k b' s := by
  intro s
  induction s with
  | nil => intro k b b'; cases k <;> simp [replaceAllAux]
  | cons c t ih =>
    intro k b b'
    cases k with
    | zero =>
      simp only [replaceAllAux, getSubstitution_of_no_dollar _ _ _ _ h]
      rw [ih (pat.length - 1) (b ++ [c]) (b' ++ [c]), ih 0 (b ++ [c]) (b' ++ [c])]
    | succ k =>
      simp only [replaceAllAux]
      exact ih k _ _

theorem replaceAll_nil (pat rep : Str) : replaceAll pat rep [] = [] := by
  simp [replaceAll, replaceAllAux]

theorem replaceAll_cons_of_no_match (pat rep : Str) (h : dollar ∉ rep) (c : CodeUnit)
    (t : Str) (hp : pat.isPrefixOf (c :: t) = false) :
    replaceAll pat rep (c :: t) = c :: replaceAll pat rep t := by
  unfold replaceAll
  simp only [replaceAllAux, hp, Bool.false_eq_true, if_false]
  rw [replaceAllAux_before pat rep h t 0 _ []]

theorem replaceAll_of_match (x y z : CodeUnit) (rep : Str) (h : dollar ∉ rep) (r : Str) :
    replaceAll [x, y, z] rep (x :: y :: z :: r) = rep ++ replaceAll [x, y, z] rep r := by
  unfold replaceAll
  simp only [replaceAllAux, List.isPrefixOf, beq_self_eq_true, Bool.and_self, if_true,
    getSubstitution_of_no_dollar _ _ _ _ h, List.length_cons, List.length_nil]
  rw [replaceAllAux_before [x, y, z] rep h r 0 _ []]

theorem alt_eq : utf16 "Alt" = [65, 108, 116] := by decide

theorem mod_eq : utf16 "Mod" = [77, 111, 100] := by decide

theorem substituteShortcuts_alt (m a r : Str) :
    substituteShortcuts m a (65 :: 108 :: 116 :: r) = a ++ substituteShortcuts m a r := by
  rw [substituteShortcuts]

theorem substituteShortcuts_mod (m a r : Str) :
    substituteShortcuts m a (77 :: 111 :: 100 :: r) = m ++ substituteShortcuts m a r := by
  rw [substituteShortcuts]

theorem substituteShortcuts_cons (m a : Str) (c : CodeUnit) (t : Str)
    (hA : ([65, 108, 116] : Str).isPrefixOf (c :: t) = false)
    (hM : ([77, 111, 100] : Str).isPrefixOf (c :: t) = false) :
    substituteShortcuts m a (c :: t) = c :: substituteShortcuts m a t := by
  rw [substituteShortcuts]
  · intro r h1 h2
    subst h1 h2
    simp [List.isPrefixOf] at hA
  · intro r h1 h2
    subst h1 h2
    simp [List.isPrefixOf] at hM

theorem isPrefixOf_three (x y z : CodeUnit) (s : Str)
    (h : ([x, y, z] : Str).isPrefixOf s = true) : ∃ r, s = x :: y :: z :: r := by
  obtain ⟨r, hr⟩ := List.isPrefixOf_iff_prefix.mp h
  exact ⟨r, by simpa using hr.symm⟩

theorem no_match_of_head_ne (x y z c : CodeUnit) (t : Str) (h : c ≠ x) :
    ([x, y, z] : Str).isPrefixOf (c :: t) = false := by
  have hb : (x == c) = false := beq_eq_false_iff_ne.mpr (Ne.symm h)
  simp only [List.isPrefixOf, hb, Bool.false_and]

theorem replaceAll_mod_append (m : Str) (hm : dollar ∉ m) (x : Str) :
    ∀ u : Str, 77 ∉ u →
      replaceAll [77, 111, 100] m (u ++ x) = u ++ replaceAll [77, 111, 100] m x := by
  intro u
  induction u with
  | nil => intro _; rfl
  | cons c u ih =>
    intro hu
    have hc : c ≠ 77 := fun e => hu (by simp [e])
    have hu' : 77 ∉ u := fun e => hu (List.mem_cons_of_mem _ e)
    rw [List.cons_append, replaceAll_cons_of_no_match _ _ hm _ _
      (no_match_of_head_ne _ _ _ _ _ hc), ih hu']
    rfl

theorem head_replaceAll_alt (a : Str) (ha : dollar ∉ a) (hne : a ≠ []) (x : CodeUnit)
    (hx : a.head? ≠ some x) (t : Str) (ht : t.head? ≠ some x) :
    (replaceAll [65, 108, 116] a t).head? ≠ some x := by
  cases t with
  | nil => simp [replaceAll_nil]
  | cons c t =>
    cases hp : ([65, 108, 116] : Str).isPrefixOf (c :: t) with
    | true =>
      obtain ⟨r, hr⟩ := isPrefixOf_three _ _ _ _ hp
      rw [hr, replaceAll_of_match _ _ _ _ ha]
      cases a with
      | nil => exact absurd rfl hne
      | cons d a => simpa using hx
    | false =>
      rw [replaceAll_cons_of_no_match _ _ ha _ _ hp]
      simpa using ht

/-- Replacing `Alt` and then `Mod` is the one-pass substitution, when neither
label contains `$` and the label put for `Alt` cannot take part in an
occurrence of `Mod`. -/
theorem replaceAll_mod_alt (m a : Str) (hm : dollar ∉ m) (ha : dollar ∉ a) (hne : a ≠ [])
    (haM : 77 ∉ a) (ho : a.head? ≠ some 111) (hd : a.head? ≠ some 100) :
    ∀ (n : Nat) (s : Str), s.length ≤ n →
      replaceAll [77, 111, 100] m (replaceAll [65, 108, 116] a s)
        = substituteShortcuts m a s := by
  intro n
  induction n with
  | zero =>
    intro s hs
    have : s = [] := List.length_eq_zero.mp (Nat.le_zero.mp hs)
    subst this
    simp [replaceAll_nil, substituteShortcuts]
  | succ n ih =>
    intro s hs
    cases s with
    | nil => simp [replaceAll_nil, substituteShortcuts]
    | cons c t =>
      cases hA : ([65, 108, 116] : Str).isPrefixOf (c :: t) with
      | true =>
        obtain ⟨r, hr⟩ := isPrefixOf_three _ _ _ _ hA
        rw [hr] at hs ⊢
        rw [replaceAll_of_match _ _ _ _ ha, replaceAll_mod_append m hm _ a haM,
          substituteShortcuts_alt, ih r (by simp at hs; omega)]
      | false =>
        cases hM : ([77, 111, 100] : Str).isPrefixOf (c :: t) with
        | true =>
          obtain ⟨r, hr⟩ := isPrefixOf_three _ _ _ _ hM
          rw [hr] at hs ⊢
          rw [replaceAll_cons_of_no_match _ _ ha _ _ (no_match_of_head_ne _ _ _ _ _ (by decide)),
            replaceAll_cons_of_no_match _ _ ha _ _ (no_match_of_head_ne _ _ _ _ _ (by decide)),
            replaceAll_cons_of_no_match _ _ ha _ _ (no_match_of_head_ne _ _ _ _ _ (by decide)),
            replaceAll_of_match _ _ _ _ hm, substituteShortcuts_mod,
            ih r (by simp at hs; omega)]
        | false =>
          rw [replaceAll_cons_of_no_match _ _ ha _ _ hA, substituteShortcuts_cons _ _ _ _ hA hM]
          have hnp : ([77, 111, 100] : Str).isPrefixOf
              (c :: replaceAll [65, 108, 116] a t) = false := by
            cases hp : ([77, 111, 100] : Str).isPrefixOf
                (c :: replaceAll [65, 108, 116] a t) with
            | false => rfl
            | true =>
              exfalso
              obtain ⟨r', hr'⟩ := isPrefixOf_three _ _ _ _ hp
              simp only [List.cons.injEq] at hr'
              obtain ⟨hc, hR⟩ := hr'
              have h1 : t.head? = some 111 := by
                by_contra hcon
                exact head_replaceAll_alt a ha hne 111 ho t hcon (by rw [hR]; rfl)
              cases t with
              | nil => simp at h1
              | cons c1 t1 =>
                simp only [List.head?_cons, Option.some.injEq] at h1
                subst h1
                rw [replaceAll_cons_of_no_match _ _ ha _ _ (no_match_of_head_ne _ _ _ _ _ (by decide))] at hR
                simp only [List.cons.injEq, true_and] at hR
                have h2 : t1.head? = some 100 := by
                  by_contra hcon
                  exact head_replaceAll_alt a ha hne 100 hd t1 hcon (by rw [hR]; rfl)
                cases t1 with
                | nil => simp at h2
                | cons c2 t2 =>
                  simp only [List.head?_cons, Option.some.injEq] at h2
                  subst h2 hc
                  simp [List.isPrefixOf] at hM
          rw [replaceAll_cons_of_no_match _ _ hm _ _ hnp, ih t (by simp at hs; omega)]

/-- C9 fails for labels that are not plain.  The replacement text of
`String.prototype.replace` is expanded, `$&` standing for the matched text: with
the modifier label `$&` the text `Mod` stays `Mod`, and with the alt label `$&`
the text `Alt` stays `Alt`.  And `Mod` is replaced after `Alt`, in the text
that holds the alt labels: with the modifier label `Ctrl`, the alt label `od`
turns `MAlt` into `Ctrl`, the empty alt label turns `MAltod` into `Ctrl`, and
the alt label `M` turns `Altod` into `Ctrl`, where the one-pass substitution
gives `Mod`. -/
theorem fixUpShortcuts_substitutes_counterexample :
    (fixUpShortcuts (labelEnv "$&" "Alt") (utf16 "Mod") none = utf16 "Mod"
      ∧ substituteShortcuts (utf16 "$&") (utf16 "Alt") (utf16 "Mod") = utf16 "$&")
    ∧ (fixUpShortcuts (labelEnv "Ctrl" "$&") (utf16 "Alt") none = utf16 "Alt"
      ∧ substituteShortcuts (utf16 "Ctrl") (utf16 "$&") (utf16 "Alt") = utf16 "$&")
    ∧ (fixUpShortcuts (labelEnv "Ctrl" "od") (utf16 "MAlt") none = utf16 "Ctrl"
      ∧ substituteShortcuts (utf16 "Ctrl") (utf16 "od") (utf16 "MAlt") = utf16 "Mod")
    ∧ (fixUpShortcuts (labelEnv "Ctrl" "") (utf16 "MAltod") none = utf16 "Ctrl"
      ∧ substituteShortcuts (utf16 "Ctrl") (utf16 "") (utf16 "MAltod") = utf16 "Mod")
    ∧ (fixUpShortcuts (labelEnv "Ctrl" "M") (utf16 "Altod") none = utf16 "Ctrl"
      ∧ substituteShortcuts (utf16 "Ctrl") (utf16 "M") (utf16 "Altod") = utf16 "Mod") := by
  decide

/-- C9, as amended.  Let `m` and `a` be the modifier-key and alt-key labels of
the platform (of the default platform when the argument is omitted), plain
labels: neither contains `$`, and `a` is not empty, does not contain `M` and
does not start with `o` or `d`.  Then `fixUpShortcuts(s, platform)` is `s` with every
occurrence of `Mod` replaced by `m`, every occurrence of `Alt` replaced by `a`
and all other text unchanged. -/
theorem fixUpShortcuts_substitutes (env : ContentEnv) (s : Str) (platform : Option Str)
    (m a : Str)
    (hm : env.getModChar (platform.getD env.platformName) = m)
    (ha : env.getAltChar (platform.getD env.platformName) = a)
    (hmd : dollar ∉ m) (had : dollar ∉ a) (hne : a ≠ [])
    (haM : 77 ∉ a) (ho : a.head? ≠ some 111) (hd : a.head? ≠ some 100) :
    fixUpShortcuts env s platform = substituteShortcuts m a s := by
  unfold fixUpShortcuts
  simp only [hm, ha, alt_eq, mod_eq]
  exact replaceAll_mod_alt m a hmd had hne haM ho hd s.length s (le_refl _)

/-- C9 as amended, at the input of the scenario: `Press Mod+K` for a platform whose
modifier label is `Ctrl` yields `Press Ctrl+K`; and on darwin `Alt+Mod`
yields `⌥+⌘`. -/
theorem fixUpShortcuts_substitutes_witness :
    fixUpShortcuts sampleContentEnv (utf16 "Press Mod+K") (some (utf16 "linux"))
        = utf16 "Press Ctrl+K"
    ∧ fixUpShortcuts sampleContentEnv (utf16 "Alt+Mod") (some (utf16 "darwin"))
        = utf16 "⌥+⌘" :=
  ⟨(fixUpShortcuts_substitutes sampleContentEnv (utf16 "Press Mod+K") (some (utf16 "linux"))
      (utf16 "Ctrl") (utf16 "Alt") (by decide) (by decide) (by decide) (by decide)
      (by decide) (by decide) (by decide) (by decide)).trans (by decide),
   (fixUpShortcuts_substitutes sampleContentEnv (utf16 "Alt+Mod") (some (utf16 "darwin"))
      (utf16 "⌘") (utf16 "⌥") (by decide) (by decide) (by decide) (by decide)
      (by decide) (by decide) (by decide) (by decide)).trans (by decide)⟩

/-! ## The initial content and the platform argument -/

/-- C10. The platform argument of `getInitialContent` reaches the result only
through `keyHelpStr(platform)`, put for the first `{{keyHelp}}` marker of the
initial template.  For any two platform arguments the journal and inbox notes
are identical, and the whole results are identical when the two key-help
blocks are; the key labels of platforms other than the default `platformName`
do not matter, since every `Mod`/`Alt` placeholder of the four templates is
replaced with the labels of `platformName`.  `getHelp`, in contrast, replaces
them with the labels of its platform argument. -/
theorem getInitialContent_platform (env : ContentEnv) (p q : Option Str) :
    (getInitialContent env p).initialJournal = (getInitialContent env q).initialJournal
    ∧ (getInitialContent env p).initialInbox = (getInitialContent env q).initialInbox
    ∧ (env.keyHelpStr (p.getD env.platformName) = env.keyHelpStr (q.getD env.platformName) →
        getInitialContent env p = getInitialContent env q)
    ∧ (∀ getModChar getAltChar : Str → Str,
        getModChar env.platformName = env.getModChar env.platformName →
        getAltChar env.platformName = env.getAltChar env.platformName →
        getInitialContent { env with getModChar := getModChar, getAltChar := getAltChar } p
          = getInitialContent env p)
    ∧ (getInitialContent env p).initialContent
        = env.fixUpNoteContent
            (replaceFirst (utf16 "{{keyHelp}}") (env.keyHelpStr (p.getD env.platformName))
              (replaceAll (utf16 "Mod") (env.getModChar env.platformName)
                (replaceAll (utf16 "Alt") (env.getAltChar env.platformName) env.initialRaw)))
    ∧ (getInitialContent env p).initialDevContent
        = env.fixUpNoteContent
            (replaceFirst (utf16 "{{keyHelp}}") (env.keyHelpStr (p.getD env.platformName))
                (replaceAll (utf16 "Mod") (env.getModChar env.platformName)
                  (replaceAll (utf16 "Alt") (env.getAltChar env.platformName) env.initialRaw))
              ++ replaceAll (utf16 "Mod") (env.getModChar env.platformName)
                  (replaceAll (utf16 "Alt") (env.getAltChar env.platformName)
                    env.initialDevRaw))
    ∧ (getInitialContent env p).initialJournal
        = env.fixUpNoteContent
            (replaceAll (utf16 "Mod") (env.getModChar env.platformName)
              (replaceAll (utf16 "Alt") (env.getAltChar env.platformName) env.dailyJournalRaw))
    ∧ (getInitialContent env p).initialInbox
        = env.fixUpNoteContent
            (replaceAll (utf16 "Mod") (env.getModChar env.platformName)
              (replaceAll (utf16 "Alt") (env.getAltChar env.platformName) env.inboxRaw))
    ∧ getHelp env p
        = env.fixUpNoteContent
            (replaceAll (utf16 "[Edna](https://edna.arslexis.io)") (utf16 "Edna")
              (replaceFirst (utf16 "{{keyHelp}}") (env.keyHelpStr (p.getD env.platformName))
                (replaceAll (utf16 "Mod") (env.getModChar (p.getD env.platformName))
                  (replaceAll (utf16 "Alt") (env.getAltChar (p.getD env.platformName))
                    env.helpRaw)))) := by
  refine ⟨rfl, rfl, ?_, ?_, rfl, rfl, rfl, rfl, rfl⟩
  · intro h
    simp only [getInitialContent, h]
  · intro g a hg ha
    simp only [getInitialContent, fixUpShortcuts, Option.getD_none, hg, ha]

/-- C10 at a concrete input: with the default platform `linux`, the initial
content for `darwin` has the label `Ctrl` of linux next to the key help of
darwin, its journal is the journal of the default call, and the help for
`darwin` has the label `⌘`. -/
theorem getInitialContent_platform_witness :
    (getInitialContent sampleContentEnv (some (utf16 "darwin"))).initialContent
        = utf16 "Ctrl+K keys of darwin"
    ∧ (getInitialContent sampleContentEnv (some (utf16 "darwin"))).initialJournal
        = (getInitialContent sampleContentEnv none).initialJournal
    ∧ getHelp sampleContentEnv (some (utf16 "darwin")) = utf16 "⌘+K keys of darwin" :=
  have h := getInitialContent_platform sampleContentEnv (some (utf16 "darwin")) none
  ⟨h.2.2.2.2.1.trans (by decide), h.1, h.2.2.2.2.2.2.2.2.trans (by decide)⟩

end Edna
